import Mathlib

/-!
# Navigation-bar script (`script.js`)

A shallow embedding of the page script and of the small part of the host
document interface it uses:

* `document.getElementById`, `document.querySelectorAll`,
* `element.classList.add / remove / toggle` (ordered token sets),
* the event-handler properties `window.onscroll` and `element.onclick`,
  a click running the `onclick` of its target and then of each ancestor,
* the `TypeError` raised when a property of `null` is read or written.

Elements live in a store (a list, in document order) and are referred to by
their position; the script's three module-level constants hold such a
position or `null` (`none`).  Scroll offsets are rational numbers (every
finite value of `window.scrollY` is one); the script only compares the
offset with 80.
-/

namespace Portfolio

/-! ## Host model: token lists -/

/-- Membership test of a class token, `classList.contains(token)`. -/
def DOMTokenList.contains (l : List String) (token : String) : Bool :=
  decide (token ∈ l)

/-- Token insertion `classList.add(token)`: appended unless already present. -/
def DOMTokenList.add (l : List String) (token : String) : List String :=
  if token ∈ l then l else l ++ [token]

/-- Token removal `classList.remove(token)`: the token is dropped, the others
keep their order. -/
def DOMTokenList.remove (l : List String) (token : String) : List String :=
  l.filter (fun t => decide (t ≠ token))

/-- Token flip `classList.toggle(token)`: removed when present, appended when
absent. -/
def DOMTokenList.toggle (l : List String) (token : String) : List String :=
  if token ∈ l then DOMTokenList.remove l token else l ++ [token]

/-! ## Host model: elements, document, page -/

/-- The three arrow functions the script creates, named by where they are
installed. -/
inductive Handler where
  /-- The function assigned to `window.onscroll` (lines 6-12). -/
  | onScroll
  /-- The function assigned to `hamburger.onclick` (lines 15-17). -/
  | onHamburger
  /-- The function assigned to each `link.onclick` (line 21). -/
  | onLink
deriving DecidableEq, Repr

/-- An uncaught `TypeError`, tagged with the source line that raised it. -/
inductive Fault where
  | typeError (line : Nat)
deriving DecidableEq, Repr

/-- An element as written in the page: its `id` (empty when it has none),
the tokens of its `class` attribute, and the position of its parent element
(`none` for a child of the document root). -/
structure Markup where
  id : String
  classes : List String
  parent : Option Nat
deriving DecidableEq, Repr

/-- A live element: `id`, `classList`, the `onclick` property and the
position of its parent element. -/
structure Element where
  id : String
  classList : List String
  onclick : Option Handler
  parent : Option Nat
deriving DecidableEq, Repr

/-- The document the script is loaded into: its elements in document order,
the viewport's vertical offset at load, and the elements matched by the
selector `.nav-links a` (positions in `nodes`, in document order). -/
structure Document where
  nodes : List Markup
  scrollY : ℚ
  navLinkAnchors : List Nat
deriving DecidableEq, Repr

/-- The page while it lives: the element store, `window.scrollY`,
`window.onscroll`, and the script's constants `navbar`, `hamburger`,
`navLinks` (an element position, or `none` for `null`). -/
structure Page where
  elems : List Element
  scrollY : ℚ
  onscroll : Option Handler
  navbar : Option Nat
  hamburger : Option Nat
  navLinks : Option Nat
deriving DecidableEq, Repr

/-- Lookup `document.getElementById(id)`: the first element, in document
order, whose id is `id`; `none` stands for `null`. -/
def getElementById : List Markup → String → Option Nat
  | [], _ => none
  | m :: rest, id => if m.id = id then some 0 else (getElementById rest id).map (· + 1)

/-- The element of the store at position `n` replaced by `f` of it. -/
def updateAt : List Element → Nat → (Element → Element) → List Element
  | [], _, _ => []
  | e :: rest, 0, f => f e :: rest
  | e :: rest, n + 1, f => e :: updateAt rest n f

/-- The class list of the element at position `n` rewritten by `f`. -/
def updateClassList (es : List Element) (n : Nat) (f : List String → List String) :
    List Element :=
  updateAt es n (fun e => { e with classList := f e.classList })

/-- Assignment `element.onclick = h` for the element at position `n`. -/
def setOnclick (es : List Element) (n : Nat) (h : Handler) : List Element :=
  updateAt es n (fun e => { e with onclick := some h })

/-- The class list of the element at position `n` (empty when there is no
such element). -/
def classListAt (p : Page) (n : Nat) : List String :=
  match p.elems[n]? with
  | some e => e.classList
  | none => []

/-- Whether the element at position `n` carries the class `c`. -/
def hasClass (p : Page) (n : Nat) (c : String) : Bool :=
  DOMTokenList.contains (classListAt p n) c

/-- The `onclick` property of the element at position `n`. -/
def onclickAt (p : Page) (n : Nat) : Option Handler :=
  match p.elems[n]? with
  | some e => e.onclick
  | none => none

/-- The navbar carries `scrolled`. -/
def scrolledFlag (p : Page) : Bool :=
  match p.navbar with
  | some n => hasClass p n "scrolled"
  | none => false

/-- The nav-links container carries `active`. -/
def activeFlag (p : Page) : Bool :=
  match p.navLinks with
  | some n => hasClass p n "active"
  | none => false

/-! ## The script -/

/-- Body of the function assigned to `window.onscroll` (lines 6-12). -/
def onScrollHandler (p : Page) : Except Fault Page :=
  if p.scrollY > 80 then
    match p.navbar with
    | none => .error (.typeError 8)
    | some n =>
      .ok { p with elems := updateClassList p.elems n (fun l => DOMTokenList.add l "scrolled") }
  else
    match p.navbar with
    | none => .error (.typeError 10)
    | some n =>
      .ok { p with elems := updateClassList p.elems n (fun l => DOMTokenList.remove l "scrolled") }

/-- Body of the function assigned to `hamburger.onclick` (lines 15-17). -/
def onHamburgerHandler (p : Page) : Except Fault Page :=
  match p.navLinks with
  | none => .error (.typeError 16)
  | some n =>
    .ok { p with elems := updateClassList p.elems n (fun l => DOMTokenList.toggle l "active") }

/-- Body of the function assigned to `link.onclick` (line 21). -/
def onLinkHandler (p : Page) : Except Fault Page :=
  match p.navLinks with
  | none => .error (.typeError 21)
  | some n =>
    .ok { p with elems := updateClassList p.elems n (fun l => DOMTokenList.remove l "active") }

/-- A call of one of the script's functions. -/
def call : Handler → Page → Except Fault Page
  | .onScroll => onScrollHandler
  | .onHamburger => onHamburgerHandler
  | .onLink => onLinkHandler

/-- The page after the host has run a handler for an event: an uncaught fault
ends the handler and is reported, the page stays as it was. -/
def fire (h : Handler) (p : Page) : Page :=
  match call h p with
  | .ok q => q
  | .error _ => p

/-- The callback of `forEach` on line 20-22: `link.onclick = ...`. -/
def bindLink (p : Page) (link : Nat) : Page :=
  { p with elems := setOnclick p.elems link .onLink }

/-- The top-level code of `script.js`, run once at load.  The result is the
page as the script leaves it and the fault that stopped it, if any; what
was done before a fault stays done. -/
def runScript (d : Document) : Page × Option Fault :=
  let navbar := getElementById d.nodes "navbar"
  let hamburger := getElementById d.nodes "hamburger"
  let navLinks := getElementById d.nodes "nav-links"
  let p0 : Page :=
    { elems := d.nodes.map
        (fun m => { id := m.id, classList := m.classes, onclick := none, parent := m.parent })
      scrollY := d.scrollY
      onscroll := none
      navbar := navbar
      hamburger := hamburger
      navLinks := navLinks }
  let p1 : Page := { p0 with onscroll := some .onScroll }
  match hamburger with
  | none => (p1, some (.typeError 15))
  | some h =>
    let p2 : Page := { p1 with elems := setOnclick p1.elems h .onHamburger }
    (d.navLinkAnchors.foldl bindLink p2, none)

/-! ## Events -/

/-- What the host delivers to the page: a scroll to offset `y`, or a click
whose target is the element at position `target`. -/
inductive Event where
  | scroll (y : ℚ)
  | click (target : Nat)
deriving DecidableEq, Repr

/-- The viewport moved to vertical offset `y`. -/
def setScrollY (p : Page) (y : ℚ) : Page :=
  { p with scrollY := y }

/-- The elements a click on `t` reaches, in the order their handlers run: the
target, its parent, and so on up to the root (the script never stops the
propagation).  In document order a parent stands before its children, so the
position goes down at every step and `t + 1` steps of fuel reach the root. -/
def propagationPath (es : List Element) : Nat → Nat → List Nat
  | 0, _ => []
  | fuel + 1, t =>
    match es[t]? with
    | none => []
    | some e =>
      match e.parent with
      | none => [t]
      | some par => if par < t then t :: propagationPath es fuel par else [t]

/-- The path of a click on the element at position `t` of the page. -/
def eventPath (p : Page) (t : Nat) : List Nat :=
  propagationPath p.elems (t + 1) t

/-- The click arriving at the element at position `i`: its `onclick` runs if
it has one. -/
def clickStep (p : Page) (i : Nat) : Page :=
  match onclickAt p i with
  | some h => fire h p
  | none => p

/-- One event: a scroll moves the viewport and then runs `window.onscroll`;
a click runs the `onclick` of its target and then, bubbling, of each
ancestor in turn; nothing happens where no handler is installed. -/
def dispatch (p : Page) : Event → Page
  | .scroll y =>
    let q : Page := setScrollY p y
    match q.onscroll with
    | some h => fire h q
    | none => q
  | .click target => (eventPath p target).foldl clickStep p

/-- A finite sequence of events, in order. -/
def run (p : Page) (events : List Event) : Page :=
  events.foldl dispatch p

/-- The hamburger handler called `k` times in a row. -/
def hamburgerClicks : Nat → Page → Page
  | 0, p => p
  | k + 1, p => hamburgerClicks k (fire .onHamburger p)

/-- Whether a sequence of events holds a scroll. -/
def hasScroll : List Event → Bool
  | [] => false
  | .scroll _ :: _ => true
  | .click _ :: rest => hasScroll rest

/-! ## Relations between pages -/

/-- The page once the three constants are bound and `window.onscroll` is
assigned (lines 1-12). -/
def boundPage (d : Document) : Page :=
  { elems := d.nodes.map
      (fun m => { id := m.id, classList := m.classes, onclick := none, parent := m.parent })
    scrollY := d.scrollY
    onscroll := some .onScroll
    navbar := getElementById d.nodes "navbar"
    hamburger := getElementById d.nodes "hamburger"
    navLinks := getElementById d.nodes "nav-links" }

/-- Everything of the page but the element store is the same in `p` and `q`. -/
def SameFrame (p q : Page) : Prop :=
  q.scrollY = p.scrollY ∧ q.onscroll = p.onscroll ∧ q.navbar = p.navbar ∧
    q.hamburger = p.hamburger ∧ q.navLinks = p.navLinks

/-- What no event changes: the installed handlers, the three constants and
the size of the store. -/
def Wiring (p q : Page) : Prop :=
  q.onscroll = p.onscroll ∧ q.navbar = p.navbar ∧ q.hamburger = p.hamburger ∧
    q.navLinks = p.navLinks ∧ q.elems.length = p.elems.length ∧
    ∀ i, onclickAt q i = onclickAt p i

/-- The parent of the element at position `i`, when there is one. -/
def parentAt (p : Page) (i : Nat) : Option (Option Nat) :=
  (p.elems[i]?).map Element.parent

/-- The elements of `q` have the parents they have in `p`. -/
def SameTree (p q : Page) : Prop :=
  ∀ i, parentAt q i = parentAt p i

/-- The navbar carries `scrolled` exactly when the offset is above 80. -/
def ScrolledMatches (p : Page) : Prop :=
  scrolledFlag p = true ↔ p.scrollY > 80

/-! ## Sample documents -/

/-- A page with the three expected elements and two links: the navbar holds
the hamburger and the nav-links container, which holds the links. -/
def sampleDoc : Document :=
  { nodes :=
      [ { id := "navbar", classes := ["nav"], parent := none },
        { id := "hamburger", classes := [], parent := some 0 },
        { id := "nav-links", classes := ["nav-links"], parent := some 0 },
        { id := "", classes := [], parent := some 2 },
        { id := "", classes := [], parent := some 2 } ]
    scrollY := 0
    navLinkAnchors := [3, 4] }

/-- The sample document, loaded with the viewport already at offset 100. -/
def scrolledLoadDoc : Document :=
  { sampleDoc with scrollY := 100 }

/-- A document without an element of id `navbar`. -/
def noNavbarDoc : Document :=
  { nodes :=
      [ { id := "hamburger", classes := [], parent := none },
        { id := "nav-links", classes := ["nav-links"], parent := none },
        { id := "", classes := [], parent := some 1 } ]
    scrollY := 0
    navLinkAnchors := [2] }

/-- A document without an element of id `hamburger`. -/
def noHamburgerDoc : Document :=
  { nodes :=
      [ { id := "navbar", classes := [], parent := none },
        { id := "nav-links", classes := ["nav-links"], parent := some 0 },
        { id := "", classes := [], parent := some 1 } ]
    scrollY := 0
    navLinkAnchors := [2] }

/-- A document without an element of id `nav-links`. -/
def noNavLinksDoc : Document :=
  { nodes :=
      [ { id := "navbar", classes := [], parent := none },
        { id := "hamburger", classes := [], parent := some 0 },
        { id := "", classes := [], parent := some 0 } ]
    scrollY := 0
    navLinkAnchors := [2] }

/-- A document whose hamburger holds the nav-links container: the navbar
holds the hamburger, the hamburger the container, the container one link. -/
def nestedDoc : Document :=
  { nodes :=
      [ { id := "navbar", classes := [], parent := none },
        { id := "hamburger", classes := [], parent := some 0 },
        { id := "nav-links", classes := ["nav-links"], parent := some 1 },
        { id := "", classes := [], parent := some 2 } ]
    scrollY := 0
    navLinkAnchors := [3] }

/-- The document `d` with `links` as the elements matched by `.nav-links a`. -/
def withLinks (d : Document) (links : List Nat) : Document :=
  { d with navLinkAnchors := links }

/-- The sample page as the script leaves it. -/
def samplePage : Page := (runScript sampleDoc).1

/-! ## Token lists: lemmas -/

theorem DOMTokenList.contains_iff (l : List String) (c : String) :
    DOMTokenList.contains l c = true ↔ c ∈ l := by
  simp [DOMTokenList.contains]

theorem DOMTokenList.mem_add (l : List String) (t c : String) :
    c ∈ DOMTokenList.add l t ↔ c ∈ l ∨ c = t := by
  unfold DOMTokenList.add
  split
  · constructor
    · intro h; exact Or.inl h
    · rintro (h | h)
      · exact h
      · subst h; assumption
  · simp

theorem DOMTokenList.mem_remove (l : List String) (t c : String) :
    c ∈ DOMTokenList.remove l t ↔ c ∈ l ∧ c ≠ t := by
  simp [DOMTokenList.remove]

theorem DOMTokenList.mem_toggle_self (l : List String) (t : String) :
    t ∈ DOMTokenList.toggle l t ↔ t ∉ l := by
  unfold DOMTokenList.toggle
  split
  · rename_i h
    simp [DOMTokenList.mem_remove, h]
  · rename_i h
    simp [h]

theorem DOMTokenList.mem_toggle_other (l : List String) (t c : String) (hc : c ≠ t) :
    c ∈ DOMTokenList.toggle l t ↔ c ∈ l := by
  unfold DOMTokenList.toggle
  split
  · simp [DOMTokenList.mem_remove, hc]
  · simp [hc]

theorem DOMTokenList.remove_of_not_mem (l : List String) (t : String) (h : t ∉ l) :
    DOMTokenList.remove l t = l := by
  unfold DOMTokenList.remove
  rw [List.filter_eq_self]
  intro a ha
  have : a ≠ t := fun e => h (e ▸ ha)
  simp [this]

theorem DOMTokenList.add_add (l : List String) (t : String) :
    DOMTokenList.add (DOMTokenList.add l t) t = DOMTokenList.add l t := by
  have h : t ∈ DOMTokenList.add l t := (DOMTokenList.mem_add l t t).2 (Or.inr rfl)
  generalize DOMTokenList.add l t = m at h ⊢
  simp [DOMTokenList.add, h]

theorem DOMTokenList.remove_remove (l : List String) (t : String) :
    DOMTokenList.remove (DOMTokenList.remove l t) t = DOMTokenList.remove l t := by
  apply DOMTokenList.remove_of_not_mem
  simp [DOMTokenList.mem_remove]

/-! ## The element store: lemmas -/

theorem updateAt_length (es : List Element) (n : Nat) (f : Element → Element) :
    (updateAt es n f).length = es.length := by
  induction es generalizing n with
  | nil => rfl
  | cons e rest ih =>
    cases n with
    | zero => rfl
    | succ n => simp [updateAt, ih]

theorem updateAt_getElem? (es : List Element) (n i : Nat) (f : Element → Element) :
    (updateAt es n f)[i]? = if i = n then (es[i]?).map f else es[i]? := by
  induction es generalizing n i with
  | nil => simp [updateAt]
  | cons e rest ih =>
    cases n with
    | zero =>
      cases i with
      | zero => simp [updateAt]
      | succ i => simp [updateAt]
    | succ n =>
      cases i with
      | zero => simp [updateAt]
      | succ i => simp [updateAt, ih]

theorem updateAt_updateAt (es : List Element) (n : Nat) (f g : Element → Element) :
    updateAt (updateAt es n f) n g = updateAt es n (fun e => g (f e)) := by
  induction es generalizing n with
  | nil => rfl
  | cons e rest ih =>
    cases n with
    | zero => rfl
    | succ n => simp [updateAt, ih]

theorem updateAt_congr (es : List Element) (n : Nat) (f g : Element → Element)
    (h : ∀ e, es[n]? = some e → f e = g e) : updateAt es n f = updateAt es n g := by
  induction es generalizing n with
  | nil => rfl
  | cons e rest ih =>
    cases n with
    | zero => simp [updateAt, h e (by simp)]
    | succ n =>
      simp only [updateAt]
      rw [ih n (fun e he => h e (by simpa using he))]

theorem updateAt_id (es : List Element) (n : Nat) : updateAt es n (fun e => e) = es := by
  induction es generalizing n with
  | nil => rfl
  | cons e rest ih =>
    cases n with
    | zero => rfl
    | succ n => simp [updateAt, ih]

/-! ## Pages: lemmas -/

theorem classListAt_update (p q : Page) (n i : Nat) (f : List String → List String)
    (he : q.elems = updateClassList p.elems n f) :
    classListAt q i =
      if i = n ∧ n < p.elems.length then f (classListAt p i) else classListAt p i := by
  unfold classListAt
  rw [he]
  unfold updateClassList
  simp only [updateAt_getElem?]
  by_cases h : i = n
  · subst h
    by_cases hlt : i < p.elems.length
    · simp [hlt, List.getElem?_eq_getElem]
    · have hnone : p.elems[i]? = none := List.getElem?_eq_none (Nat.le_of_not_lt hlt)
      simp [hlt, hnone]
  · simp [h]

theorem classListAt_update_self (p q : Page) (n : Nat) (f : List String → List String)
    (he : q.elems = updateClassList p.elems n f) (hlt : n < p.elems.length) :
    classListAt q n = f (classListAt p n) := by
  rw [classListAt_update p q n n f he]; simp [hlt]

theorem classListAt_update_other (p q : Page) (n i : Nat) (f : List String → List String)
    (he : q.elems = updateClassList p.elems n f) (h : i ≠ n) :
    classListAt q i = classListAt p i := by
  rw [classListAt_update p q n i f he]; simp [h]

/-- A rewrite of a class list that keeps the membership of `c` keeps it at
every position of the store. -/
theorem hasClass_update_frame (p q : Page) (n i : Nat) (f : List String → List String)
    (he : q.elems = updateClassList p.elems n f)
    (c : String) (hf : ∀ l, c ∈ f l ↔ c ∈ l) :
    hasClass q i c = hasClass p i c := by
  unfold hasClass
  rw [classListAt_update p q n i f he]
  split
  · rw [Bool.eq_iff_iff, DOMTokenList.contains_iff, DOMTokenList.contains_iff]
    exact hf _
  · rfl

theorem updateClassList_length (es : List Element) (n : Nat) (f : List String → List String) :
    (updateClassList es n f).length = es.length :=
  updateAt_length es n _

theorem updateClassList_twice (es : List Element) (n : Nat) (f : List String → List String)
    (hf : ∀ l, f (f l) = f l) :
    updateClassList (updateClassList es n f) n f = updateClassList es n f := by
  unfold updateClassList
  rw [updateAt_updateAt]
  apply updateAt_congr
  intro e _
  simp [hf]

theorem updateClassList_fixed (es : List Element) (n : Nat) (f : List String → List String)
    (hf : ∀ e, es[n]? = some e → f e.classList = e.classList) :
    updateClassList es n f = es := by
  unfold updateClassList
  rw [updateAt_congr es n _ (fun e => e), updateAt_id]
  intro e he
  rw [hf e he]

/-! ## The handlers: what one call does -/

theorem onScrollHandler_pos (p : Page) (n : Nat) (hn : p.navbar = some n)
    (hy : p.scrollY > 80) :
    ∃ q, onScrollHandler p = .ok q ∧ SameFrame p q ∧
      q.elems = updateClassList p.elems n (fun l => DOMTokenList.add l "scrolled") := by
  unfold onScrollHandler
  rw [if_pos hy, hn]
  exact ⟨_, rfl, ⟨rfl, rfl, hn.symm, rfl, rfl⟩, rfl⟩

theorem onScrollHandler_neg (p : Page) (n : Nat) (hn : p.navbar = some n)
    (hy : ¬ p.scrollY > 80) :
    ∃ q, onScrollHandler p = .ok q ∧ SameFrame p q ∧
      q.elems = updateClassList p.elems n (fun l => DOMTokenList.remove l "scrolled") := by
  unfold onScrollHandler
  rw [if_neg hy, hn]
  exact ⟨_, rfl, ⟨rfl, rfl, hn.symm, rfl, rfl⟩, rfl⟩

theorem onScrollHandler_null (p : Page) (hn : p.navbar = none) :
    ∃ line, onScrollHandler p = .error (.typeError line) := by
  unfold onScrollHandler
  rw [hn]
  split
  · exact ⟨8, rfl⟩
  · exact ⟨10, rfl⟩

theorem onHamburgerHandler_eq (p : Page) (n : Nat) (hn : p.navLinks = some n) :
    ∃ q, onHamburgerHandler p = .ok q ∧ SameFrame p q ∧
      q.elems = updateClassList p.elems n (fun l => DOMTokenList.toggle l "active") := by
  unfold onHamburgerHandler
  rw [hn]
  exact ⟨_, rfl, ⟨rfl, rfl, rfl, rfl, hn.symm⟩, rfl⟩

theorem onLinkHandler_eq (p : Page) (n : Nat) (hn : p.navLinks = some n) :
    ∃ q, onLinkHandler p = .ok q ∧ SameFrame p q ∧
      q.elems = updateClassList p.elems n (fun l => DOMTokenList.remove l "active") := by
  unfold onLinkHandler
  rw [hn]
  exact ⟨_, rfl, ⟨rfl, rfl, rfl, rfl, hn.symm⟩, rfl⟩

theorem onScrollHandler_scrolled (p : Page) (n : Nat) (hn : p.navbar = some n)
    (hlt : n < p.elems.length) :
    ∃ q, onScrollHandler p = .ok q ∧ SameFrame p q ∧ q.elems.length = p.elems.length ∧
      (scrolledFlag q = true ↔ p.scrollY > 80) := by
  by_cases hy : p.scrollY > 80
  · obtain ⟨q, hq, hfr, hqe⟩ := onScrollHandler_pos p n hn hy
    refine ⟨q, hq, hfr, by rw [hqe, updateClassList_length], ?_⟩
    have hqn : q.navbar = some n := hfr.2.2.1.trans hn
    simp only [scrolledFlag, hqn, hasClass, classListAt_update_self p q n _ hqe hlt,
      DOMTokenList.contains_iff, DOMTokenList.mem_add]
    simp [hy]
  · obtain ⟨q, hq, hfr, hqe⟩ := onScrollHandler_neg p n hn hy
    refine ⟨q, hq, hfr, by rw [hqe, updateClassList_length], ?_⟩
    have hqn : q.navbar = some n := hfr.2.2.1.trans hn
    simp only [scrolledFlag, hqn, hasClass, classListAt_update_self p q n _ hqe hlt,
      DOMTokenList.contains_iff, DOMTokenList.mem_remove]
    simp [hy]

theorem onHamburgerHandler_active (p : Page) (n : Nat) (hn : p.navLinks = some n)
    (hlt : n < p.elems.length) :
    ∃ q, onHamburgerHandler p = .ok q ∧ q.navLinks = some n ∧
      q.elems.length = p.elems.length ∧ activeFlag q = !activeFlag p := by
  obtain ⟨q, hq, hfr, hqe⟩ := onHamburgerHandler_eq p n hn
  have hqn : q.navLinks = some n := hfr.2.2.2.2.trans hn
  refine ⟨q, hq, hqn, by rw [hqe, updateClassList_length], ?_⟩
  simp only [activeFlag, hn, hqn, hasClass, classListAt_update_self p q n _ hqe hlt]
  rw [Bool.eq_iff_iff, DOMTokenList.contains_iff, DOMTokenList.mem_toggle_self]
  simp [DOMTokenList.contains]

theorem onLinkHandler_active (p : Page) (n : Nat) (hn : p.navLinks = some n)
    (hlt : n < p.elems.length) :
    ∃ q, onLinkHandler p = .ok q ∧ activeFlag q = false := by
  obtain ⟨q, hq, hfr, hqe⟩ := onLinkHandler_eq p n hn
  have hqn : q.navLinks = some n := hfr.2.2.2.2.trans hn
  refine ⟨q, hq, ?_⟩
  simp only [activeFlag, hqn, hasClass, classListAt_update_self p q n _ hqe hlt]
  rw [Bool.eq_false_iff, Ne, DOMTokenList.contains_iff, DOMTokenList.mem_remove]
  simp

theorem onLinkHandler_noop (p : Page) (n : Nat) (hn : p.navLinks = some n)
    (hoff : activeFlag p = false) : onLinkHandler p = .ok p := by
  have hfix : updateClassList p.elems n (fun l => DOMTokenList.remove l "active") = p.elems := by
    apply updateClassList_fixed
    intro e he
    apply DOMTokenList.remove_of_not_mem
    intro hmem
    have : activeFlag p = true := by
      simp [activeFlag, hn, hasClass, classListAt, he, DOMTokenList.contains, hmem]
    rw [hoff] at this
    exact Bool.noConfusion this
  unfold onLinkHandler
  rw [hn]
  simp only [hfix]
  rw [← hn]

theorem fire_onHamburger_keeps (p : Page) :
    (fire .onHamburger p).navLinks = p.navLinks ∧
      (fire .onHamburger p).elems.length = p.elems.length := by
  cases h : p.navLinks with
  | none => simp [fire, call, onHamburgerHandler, h]
  | some n =>
    obtain ⟨q, hq, hfr, hqe⟩ := onHamburgerHandler_eq p n h
    simp only [fire, call, hq]
    exact ⟨hfr.2.2.2.2.trans h, by rw [hqe, updateClassList_length]⟩

theorem hamburgerClicks_keeps (k : Nat) (p : Page) :
    (hamburgerClicks k p).navLinks = p.navLinks ∧
      (hamburgerClicks k p).elems.length = p.elems.length := by
  induction k generalizing p with
  | zero => exact ⟨rfl, rfl⟩
  | succ k ih =>
    have h1 := ih (fire .onHamburger p)
    have h2 := fire_onHamburger_keeps p
    exact ⟨h1.1.trans h2.1, h1.2.trans h2.2⟩

/-! ## The handlers under `fire` -/

theorem fire_onScroll_null (p : Page) (hn : p.navbar = none) : fire .onScroll p = p := by
  obtain ⟨line, hl⟩ := onScrollHandler_null p hn
  simp only [fire, call, hl]

theorem fire_onScroll_pos (p : Page) (n : Nat) (hn : p.navbar = some n) (hy : p.scrollY > 80) :
    SameFrame p (fire .onScroll p) ∧ (fire .onScroll p).elems =
      updateClassList p.elems n (fun l => DOMTokenList.add l "scrolled") := by
  obtain ⟨q, hq, hfr, hqe⟩ := onScrollHandler_pos p n hn hy
  simp only [fire, call, hq]
  exact ⟨hfr, hqe⟩

theorem fire_onScroll_neg (p : Page) (n : Nat) (hn : p.navbar = some n) (hy : ¬ p.scrollY > 80) :
    SameFrame p (fire .onScroll p) ∧ (fire .onScroll p).elems =
      updateClassList p.elems n (fun l => DOMTokenList.remove l "scrolled") := by
  obtain ⟨q, hq, hfr, hqe⟩ := onScrollHandler_neg p n hn hy
  simp only [fire, call, hq]
  exact ⟨hfr, hqe⟩

theorem fire_onHamburger_null (p : Page) (hn : p.navLinks = none) :
    fire .onHamburger p = p := by
  simp only [fire, call, onHamburgerHandler, hn]

theorem fire_onHamburger_some (p : Page) (n : Nat) (hn : p.navLinks = some n) :
    SameFrame p (fire .onHamburger p) ∧ (fire .onHamburger p).elems =
      updateClassList p.elems n (fun l => DOMTokenList.toggle l "active") := by
  obtain ⟨q, hq, hfr, hqe⟩ := onHamburgerHandler_eq p n hn
  simp only [fire, call, hq]
  exact ⟨hfr, hqe⟩

theorem fire_onLink_null (p : Page) (hn : p.navLinks = none) : fire .onLink p = p := by
  simp only [fire, call, onLinkHandler, hn]

theorem fire_onLink_some (p : Page) (n : Nat) (hn : p.navLinks = some n) :
    SameFrame p (fire .onLink p) ∧ (fire .onLink p).elems =
      updateClassList p.elems n (fun l => DOMTokenList.remove l "active") := by
  obtain ⟨q, hq, hfr, hqe⟩ := onLinkHandler_eq p n hn
  simp only [fire, call, hq]
  exact ⟨hfr, hqe⟩

theorem sameFrame_refl (p : Page) : SameFrame p p := ⟨rfl, rfl, rfl, rfl, rfl⟩

/-- No handler touches anything but the element store, and the store keeps
its length. -/
theorem fire_sameFrame (h : Handler) (p : Page) :
    SameFrame p (fire h p) ∧ (fire h p).elems.length = p.elems.length := by
  cases h with
  | onScroll =>
    cases hn : p.navbar with
    | none => rw [fire_onScroll_null p hn]; exact ⟨sameFrame_refl p, rfl⟩
    | some n =>
      by_cases hy : p.scrollY > 80
      · obtain ⟨hfr, he⟩ := fire_onScroll_pos p n hn hy
        exact ⟨hfr, by rw [he, updateClassList_length]⟩
      · obtain ⟨hfr, he⟩ := fire_onScroll_neg p n hn hy
        exact ⟨hfr, by rw [he, updateClassList_length]⟩
  | onHamburger =>
    cases hn : p.navLinks with
    | none => rw [fire_onHamburger_null p hn]; exact ⟨sameFrame_refl p, rfl⟩
    | some n =>
      obtain ⟨hfr, he⟩ := fire_onHamburger_some p n hn
      exact ⟨hfr, by rw [he, updateClassList_length]⟩
  | onLink =>
    cases hn : p.navLinks with
    | none => rw [fire_onLink_null p hn]; exact ⟨sameFrame_refl p, rfl⟩
    | some n =>
      obtain ⟨hfr, he⟩ := fire_onLink_some p n hn
      exact ⟨hfr, by rw [he, updateClassList_length]⟩

/-- The scroll handler keeps the membership of every class but `scrolled`,
at every element. -/
theorem fire_onScroll_hasClass (p : Page) (i : Nat) (c : String) (hc : c ≠ "scrolled") :
    hasClass (fire .onScroll p) i c = hasClass p i c := by
  cases hn : p.navbar with
  | none => rw [fire_onScroll_null p hn]
  | some n =>
    by_cases hy : p.scrollY > 80
    · exact hasClass_update_frame p _ n i _ (fire_onScroll_pos p n hn hy).2 c
        (fun l => by simp [DOMTokenList.mem_add, hc])
    · exact hasClass_update_frame p _ n i _ (fire_onScroll_neg p n hn hy).2 c
        (fun l => by simp [DOMTokenList.mem_remove, hc])

/-- The scroll handler keeps the class list of every element but the navbar. -/
theorem fire_onScroll_classListAt (p : Page) (i : Nat) (hi : p.navbar ≠ some i) :
    classListAt (fire .onScroll p) i = classListAt p i := by
  cases hn : p.navbar with
  | none => rw [fire_onScroll_null p hn]
  | some n =>
    have hne : i ≠ n := fun e => hi (by rw [hn, e])
    by_cases hy : p.scrollY > 80
    · exact classListAt_update_other p _ n i _ (fire_onScroll_pos p n hn hy).2 hne
    · exact classListAt_update_other p _ n i _ (fire_onScroll_neg p n hn hy).2 hne

/-- The click handlers keep the membership of every class but `active`, at
every element. -/
theorem fire_click_hasClass (h : Handler) (hh : h ≠ .onScroll) (p : Page) (i : Nat)
    (c : String) (hc : c ≠ "active") :
    hasClass (fire h p) i c = hasClass p i c := by
  cases h with
  | onScroll => exact absurd rfl hh
  | onHamburger =>
    cases hn : p.navLinks with
    | none => rw [fire_onHamburger_null p hn]
    | some n =>
      exact hasClass_update_frame p _ n i _ (fire_onHamburger_some p n hn).2 c
        (fun l => DOMTokenList.mem_toggle_other l "active" c hc)
  | onLink =>
    cases hn : p.navLinks with
    | none => rw [fire_onLink_null p hn]
    | some n =>
      exact hasClass_update_frame p _ n i _ (fire_onLink_some p n hn).2 c
        (fun l => by simp [DOMTokenList.mem_remove, hc])

/-- The click handlers keep the class list of every element but the
nav-links container. -/
theorem fire_click_classListAt (h : Handler) (hh : h ≠ .onScroll) (p : Page) (i : Nat)
    (hi : p.navLinks ≠ some i) :
    classListAt (fire h p) i = classListAt p i := by
  cases h with
  | onScroll => exact absurd rfl hh
  | onHamburger =>
    cases hn : p.navLinks with
    | none => rw [fire_onHamburger_null p hn]
    | some n =>
      exact classListAt_update_other p _ n i _ (fire_onHamburger_some p n hn).2
        (fun e => hi (by rw [hn, e]))
  | onLink =>
    cases hn : p.navLinks with
    | none => rw [fire_onLink_null p hn]
    | some n =>
      exact classListAt_update_other p _ n i _ (fire_onLink_some p n hn).2
        (fun e => hi (by rw [hn, e]))

theorem scrolledFlag_congr (p q : Page) (hn : q.navbar = p.navbar)
    (hc : ∀ i, hasClass q i "scrolled" = hasClass p i "scrolled") :
    scrolledFlag q = scrolledFlag p := by
  unfold scrolledFlag
  rw [hn]
  cases p.navbar with
  | none => rfl
  | some n => exact hc n

theorem activeFlag_congr (p q : Page) (hn : q.navLinks = p.navLinks)
    (hc : ∀ i, hasClass q i "active" = hasClass p i "active") :
    activeFlag q = activeFlag p := by
  unfold activeFlag
  rw [hn]
  cases p.navLinks with
  | none => rfl
  | some n => exact hc n

theorem fire_onScroll_activeFlag (p : Page) :
    activeFlag (fire .onScroll p) = activeFlag p :=
  activeFlag_congr p _ (fire_sameFrame .onScroll p).1.2.2.2.2
    (fun i => fire_onScroll_hasClass p i "active" (by decide))

theorem fire_click_scrolledFlag (h : Handler) (hh : h ≠ .onScroll) (p : Page) :
    scrolledFlag (fire h p) = scrolledFlag p :=
  scrolledFlag_congr p _ (fire_sameFrame h p).1.2.2.1
    (fun i => fire_click_hasClass h hh p i "scrolled" (by decide))

theorem Page.eq_of_sameFrame (p q : Page) (he : q.elems = p.elems) (hfr : SameFrame p q) :
    q = p := by
  obtain ⟨h1, h2, h3, h4, h5⟩ := hfr
  cases p
  cases q
  simp only [Page.mk.injEq]
  exact ⟨he, h1, h2, h3, h4, h5⟩

/-- A second call of the scroll handler at the same offset changes nothing. -/
theorem fire_onScroll_twice (p : Page) :
    fire .onScroll (fire .onScroll p) = fire .onScroll p := by
  cases hn : p.navbar with
  | none => rw [fire_onScroll_null p hn, fire_onScroll_null p hn]
  | some n =>
    by_cases hy : p.scrollY > 80
    · obtain ⟨hfr, he⟩ := fire_onScroll_pos p n hn hy
      have hn1 : (fire .onScroll p).navbar = some n := hfr.2.2.1.trans hn
      have hy1 : (fire .onScroll p).scrollY > 80 := by rw [hfr.1]; exact hy
      obtain ⟨hfr1, he1⟩ := fire_onScroll_pos _ n hn1 hy1
      apply Page.eq_of_sameFrame _ _ _ hfr1
      rw [he1, he]
      exact updateClassList_twice _ _ _ (fun l => DOMTokenList.add_add l "scrolled")
    · obtain ⟨hfr, he⟩ := fire_onScroll_neg p n hn hy
      have hn1 : (fire .onScroll p).navbar = some n := hfr.2.2.1.trans hn
      have hy1 : ¬ (fire .onScroll p).scrollY > 80 := by rw [hfr.1]; exact hy
      obtain ⟨hfr1, he1⟩ := fire_onScroll_neg _ n hn1 hy1
      apply Page.eq_of_sameFrame _ _ _ hfr1
      rw [he1, he]
      exact updateClassList_twice _ _ _ (fun l => DOMTokenList.remove_remove l "scrolled")

/-! ## The script at load: lemmas -/

theorem getElementById_lt (ns : List Markup) (id : String) (n : Nat)
    (h : getElementById ns id = some n) : n < ns.length := by
  induction ns generalizing n with
  | nil => simp [getElementById] at h
  | cons m rest ih =>
    unfold getElementById at h
    split at h
    · cases h; simp
    · cases hr : getElementById rest id with
      | none => simp [hr] at h
      | some k =>
        simp [hr] at h
        subst h
        simpa using ih k hr

theorem runScript_null (d : Document) (hh : getElementById d.nodes "hamburger" = none) :
    runScript d = (boundPage d, some (.typeError 15)) := by
  simp only [runScript, hh, boundPage]

theorem runScript_some (d : Document) (h : Nat)
    (hh : getElementById d.nodes "hamburger" = some h) :
    runScript d =
      (d.navLinkAnchors.foldl bindLink
        { boundPage d with elems := setOnclick (boundPage d).elems h .onHamburger }, none) := by
  simp only [runScript, hh, boundPage]

theorem sameFrame_trans {p q r : Page} (h1 : SameFrame p q) (h2 : SameFrame q r) :
    SameFrame p r :=
  ⟨h2.1.trans h1.1, h2.2.1.trans h1.2.1, h2.2.2.1.trans h1.2.2.1,
    h2.2.2.2.1.trans h1.2.2.2.1, h2.2.2.2.2.trans h1.2.2.2.2⟩

theorem classListAt_setOnclick (p q : Page) (n i : Nat) (h : Handler)
    (he : q.elems = setOnclick p.elems n h) : classListAt q i = classListAt p i := by
  unfold classListAt
  rw [he]
  unfold setOnclick
  rw [updateAt_getElem?]
  by_cases hi : i = n
  · rw [if_pos hi]
    cases p.elems[i]? with
    | none => rfl
    | some e => rfl
  · rw [if_neg hi]

theorem onclickAt_setOnclick (p q : Page) (n i : Nat) (h : Handler)
    (he : q.elems = setOnclick p.elems n h) :
    onclickAt q i = if i = n ∧ n < p.elems.length then some h else onclickAt p i := by
  unfold onclickAt
  rw [he]
  unfold setOnclick
  rw [updateAt_getElem?]
  by_cases hi : i = n
  · subst hi
    by_cases hlt : i < p.elems.length
    · simp [hlt, List.getElem?_eq_getElem]
    · have hnone : p.elems[i]? = none := List.getElem?_eq_none (Nat.le_of_not_lt hlt)
      simp [hlt, hnone]
  · simp [hi]

theorem onclickAt_updateClassList (p q : Page) (n i : Nat) (f : List String → List String)
    (he : q.elems = updateClassList p.elems n f) : onclickAt q i = onclickAt p i := by
  unfold onclickAt
  rw [he]
  unfold updateClassList
  rw [updateAt_getElem?]
  by_cases hi : i = n
  · rw [if_pos hi]
    cases p.elems[i]? with
    | none => rfl
    | some e => rfl
  · rw [if_neg hi]

/-- What the loop over the matched links leaves: nothing changes but the
`onclick` of the matched elements. -/
theorem foldl_bindLink (links : List Nat) (p : Page) :
    SameFrame p (links.foldl bindLink p) ∧
    (links.foldl bindLink p).elems.length = p.elems.length ∧
    (∀ i, classListAt (links.foldl bindLink p) i = classListAt p i) ∧
    (∀ i, onclickAt (links.foldl bindLink p) i =
      if i ∈ links ∧ i < p.elems.length then some .onLink else onclickAt p i) := by
  induction links generalizing p with
  | nil => exact ⟨sameFrame_refl p, rfl, fun _ => rfl, fun i => by simp⟩
  | cons l rest ih =>
    obtain ⟨hfr, hlen, hcl, hoc⟩ := ih (bindLink p l)
    have hfr0 : SameFrame p (bindLink p l) := ⟨rfl, rfl, rfl, rfl, rfl⟩
    have hlen0 : (bindLink p l).elems.length = p.elems.length := updateAt_length _ _ _
    refine ⟨sameFrame_trans hfr0 hfr, hlen.trans hlen0, ?_, ?_⟩
    · intro i
      exact (hcl i).trans (classListAt_setOnclick p (bindLink p l) l i .onLink rfl)
    · intro i
      simp only [List.foldl_cons, List.mem_cons]
      rw [hoc i, hlen0, onclickAt_setOnclick p (bindLink p l) l i .onLink rfl]
      by_cases h1 : i ∈ rest
      · by_cases h2 : i < p.elems.length
        · simp [h1, h2]
        · have h3 : ¬ (i = l ∧ l < p.elems.length) := fun h => h2 (h.1 ▸ h.2)
          simp [h2, h3]
      · by_cases h2 : i = l
        · subst h2; simp [h1]
        · simp [h1, h2]

/-- The page the script leaves when the hamburger exists: constants, scroll
offset and class lists as bound at load, `window.onscroll` installed, the
link handler on every matched element, the toggle on the hamburger unless
it is itself a matched element. -/
theorem runScript_page (d : Document) (h : Nat)
    (hh : getElementById d.nodes "hamburger" = some h) :
    (runScript d).2 = none ∧
    SameFrame (boundPage d) (runScript d).1 ∧
    (runScript d).1.elems.length = d.nodes.length ∧
    (∀ i, classListAt (runScript d).1 i = classListAt (boundPage d) i) ∧
    (∀ i, onclickAt (runScript d).1 i =
      if i ∈ d.navLinkAnchors ∧ i < d.nodes.length then some .onLink
      else if i = h then some .onHamburger else none) := by
  rw [runScript_some d h hh]
  have hlen : (boundPage d).elems.length = d.nodes.length := by simp [boundPage]
  have hhlt : h < d.nodes.length := getElementById_lt _ _ _ hh
  generalize hq : ({ boundPage d with
    elems := setOnclick (boundPage d).elems h .onHamburger } : Page) = q
  have hqe : q.elems = setOnclick (boundPage d).elems h .onHamburger := by rw [← hq]
  have hqf : SameFrame (boundPage d) q := by rw [← hq]; exact ⟨rfl, rfl, rfl, rfl, rfl⟩
  have hqlen : q.elems.length = d.nodes.length := by
    rw [hqe]; unfold setOnclick; rw [updateAt_length, hlen]
  obtain ⟨hfr, hl, hcl, hoc⟩ := foldl_bindLink d.navLinkAnchors q
  refine ⟨rfl, sameFrame_trans hqf hfr, hl.trans hqlen, ?_, ?_⟩
  · intro i
    exact (hcl i).trans (classListAt_setOnclick _ q h i .onHamburger hqe)
  · intro i
    show onclickAt (List.foldl bindLink q d.navLinkAnchors) i = _
    rw [hoc i, hqlen, onclickAt_setOnclick _ q h i .onHamburger hqe, hlen]
    have hnone : onclickAt (boundPage d) i = none := by
      unfold onclickAt boundPage
      simp only [List.getElem?_map]
      cases d.nodes[i]? with
      | none => rfl
      | some m => rfl
    rw [hnone]
    by_cases h2 : i = h
    · subst h2; simp [hhlt]
    · simp [h2]

theorem boundPage_onclickAt (d : Document) (i : Nat) : onclickAt (boundPage d) i = none := by
  unfold onclickAt boundPage
  simp only [List.getElem?_map]
  cases d.nodes[i]? with
  | none => rfl
  | some m => rfl

/-- The script installs `window.onscroll` and binds the three constants
whether or not it runs to its end. -/
theorem runScript_frame (d : Document) :
    SameFrame (boundPage d) (runScript d).1 ∧
      (runScript d).1.elems.length = d.nodes.length := by
  cases hh : getElementById d.nodes "hamburger" with
  | none =>
    rw [runScript_null d hh]
    exact ⟨sameFrame_refl _, by simp [boundPage]⟩
  | some h =>
    obtain ⟨_, hfr, hlen, _⟩ := runScript_page d h hh
    exact ⟨hfr, hlen⟩

/-! ## Events: lemmas -/

theorem wiring_refl (p : Page) : Wiring p p := ⟨rfl, rfl, rfl, rfl, rfl, fun _ => rfl⟩

theorem wiring_trans {p q r : Page} (h1 : Wiring p q) (h2 : Wiring q r) : Wiring p r :=
  ⟨h2.1.trans h1.1, h2.2.1.trans h1.2.1, h2.2.2.1.trans h1.2.2.1,
    h2.2.2.2.1.trans h1.2.2.2.1, h2.2.2.2.2.1.trans h1.2.2.2.2.1,
    fun i => (h2.2.2.2.2.2 i).trans (h1.2.2.2.2.2 i)⟩

theorem fire_onclickAt (h : Handler) (p : Page) (i : Nat) :
    onclickAt (fire h p) i = onclickAt p i := by
  cases h with
  | onScroll =>
    cases hn : p.navbar with
    | none => rw [fire_onScroll_null p hn]
    | some n =>
      by_cases hy : p.scrollY > 80
      · exact onclickAt_updateClassList p _ n i _ (fire_onScroll_pos p n hn hy).2
      · exact onclickAt_updateClassList p _ n i _ (fire_onScroll_neg p n hn hy).2
  | onHamburger =>
    cases hn : p.navLinks with
    | none => rw [fire_onHamburger_null p hn]
    | some n => exact onclickAt_updateClassList p _ n i _ (fire_onHamburger_some p n hn).2
  | onLink =>
    cases hn : p.navLinks with
    | none => rw [fire_onLink_null p hn]
    | some n => exact onclickAt_updateClassList p _ n i _ (fire_onLink_some p n hn).2

theorem fire_wiring (h : Handler) (p : Page) : Wiring p (fire h p) := by
  obtain ⟨hfr, hlen⟩ := fire_sameFrame h p
  exact ⟨hfr.2.1, hfr.2.2.1, hfr.2.2.2.1, hfr.2.2.2.2, hlen, fire_onclickAt h p⟩

theorem setScrollY_wiring (p : Page) (y : ℚ) : Wiring p (setScrollY p y) :=
  ⟨rfl, rfl, rfl, rfl, rfl, fun _ => rfl⟩

theorem dispatch_scroll (p : Page) (y : ℚ) (h : Handler) (ho : p.onscroll = some h) :
    dispatch p (.scroll y) = fire h (setScrollY p y) := by
  have ho1 : (setScrollY p y).onscroll = some h := ho
  simp only [dispatch, ho1]

theorem dispatch_scroll_none (p : Page) (y : ℚ) (ho : p.onscroll = none) :
    dispatch p (.scroll y) = setScrollY p y := by
  have ho1 : (setScrollY p y).onscroll = none := ho
  simp only [dispatch, ho1]

theorem dispatch_click (p : Page) (t : Nat) :
    dispatch p (.click t) = (eventPath p t).foldl clickStep p := rfl

theorem clickStep_some (p : Page) (i : Nat) (h : Handler) (ho : onclickAt p i = some h) :
    clickStep p i = fire h p := by
  simp only [clickStep, ho]

theorem clickStep_none (p : Page) (i : Nat) (ho : onclickAt p i = none) :
    clickStep p i = p := by
  simp only [clickStep, ho]

theorem clickStep_wiring (p : Page) (i : Nat) : Wiring p (clickStep p i) := by
  cases ho : onclickAt p i with
  | none => rw [clickStep_none p i ho]; exact wiring_refl p
  | some h => rw [clickStep_some p i h ho]; exact fire_wiring h p

theorem foldl_clickStep_wiring (path : List Nat) (p : Page) :
    Wiring p (path.foldl clickStep p) := by
  induction path generalizing p with
  | nil => exact wiring_refl p
  | cons i rest ih => exact wiring_trans (clickStep_wiring p i) (ih (clickStep p i))

/-- A click that meets no handler on its path changes nothing. -/
theorem foldl_clickStep_none (path : List Nat) (p : Page)
    (h : ∀ i ∈ path, onclickAt p i = none) : path.foldl clickStep p = p := by
  induction path with
  | nil => rfl
  | cons i rest ih =>
    rw [List.foldl_cons, clickStep_none p i (h i (List.mem_cons_self i rest))]
    exact ih (fun j hj => h j (List.mem_cons_of_mem i hj))

theorem dispatch_wiring (p : Page) (e : Event) : Wiring p (dispatch p e) := by
  cases e with
  | scroll y =>
    cases ho : p.onscroll with
    | none => rw [dispatch_scroll_none p y ho]; exact setScrollY_wiring p y
    | some h =>
      rw [dispatch_scroll p y h ho]
      exact wiring_trans (setScrollY_wiring p y) (fire_wiring h _)
  | click t => exact foldl_clickStep_wiring (eventPath p t) p

theorem run_cons (p : Page) (e : Event) (events : List Event) :
    run p (e :: events) = run (dispatch p e) events := rfl

theorem run_append_one (p : Page) (events : List Event) (e : Event) :
    run p (events ++ [e]) = dispatch (run p events) e := by
  simp [run, List.foldl_append]

theorem run_wiring (p : Page) (events : List Event) : Wiring p (run p events) := by
  induction events generalizing p with
  | nil => exact wiring_refl p
  | cons e rest ih => exact wiring_trans (dispatch_wiring p e) (ih (dispatch p e))

theorem fire_onScroll_matches (p : Page) (n : Nat) (hn : p.navbar = some n)
    (hlt : n < p.elems.length) : ScrolledMatches (fire .onScroll p) := by
  obtain ⟨q, hq, hfr, _, hiff⟩ := onScrollHandler_scrolled p n hn hlt
  have hf : fire .onScroll p = q := by simp only [fire, call, hq]
  rw [hf]
  unfold ScrolledMatches
  rw [hfr.1]
  exact hiff

theorem fire_click_matches (h : Handler) (hh : h ≠ .onScroll) (p : Page)
    (hp : ScrolledMatches p) : ScrolledMatches (fire h p) := by
  unfold ScrolledMatches
  rw [fire_click_scrolledFlag h hh p, (fire_sameFrame h p).1.1]
  exact hp

theorem dispatch_scroll_matches (p : Page) (y : ℚ) (n : Nat)
    (ho : p.onscroll = some .onScroll) (hn : p.navbar = some n) (hlt : n < p.elems.length) :
    ScrolledMatches (dispatch p (.scroll y)) := by
  rw [dispatch_scroll p y .onScroll ho]
  exact fire_onScroll_matches (setScrollY p y) n hn hlt

theorem clickStep_matches (p : Page) (i : Nat) (n : Nat)
    (hn : p.navbar = some n) (hlt : n < p.elems.length) (hp : ScrolledMatches p) :
    ScrolledMatches (clickStep p i) := by
  cases ho : onclickAt p i with
  | none => rw [clickStep_none p i ho]; exact hp
  | some h =>
    rw [clickStep_some p i h ho]
    cases h with
    | onScroll => exact fire_onScroll_matches p n hn hlt
    | onHamburger => exact fire_click_matches .onHamburger (by decide) p hp
    | onLink => exact fire_click_matches .onLink (by decide) p hp

theorem foldl_clickStep_matches (path : List Nat) (p : Page) (n : Nat)
    (hn : p.navbar = some n) (hlt : n < p.elems.length) (hp : ScrolledMatches p) :
    ScrolledMatches (path.foldl clickStep p) := by
  induction path generalizing p with
  | nil => exact hp
  | cons i rest ih =>
    have hw := clickStep_wiring p i
    exact ih (clickStep p i) (hw.2.1.trans hn) (by rw [hw.2.2.2.2.1]; exact hlt)
      (clickStep_matches p i n hn hlt hp)

theorem dispatch_click_matches (p : Page) (t : Nat) (n : Nat)
    (hn : p.navbar = some n) (hlt : n < p.elems.length) (hp : ScrolledMatches p) :
    ScrolledMatches (dispatch p (.click t)) :=
  foldl_clickStep_matches (eventPath p t) p n hn hlt hp

theorem run_matches (n : Nat) (events : List Event) (p : Page)
    (ho : p.onscroll = some .onScroll) (hn : p.navbar = some n) (hlt : n < p.elems.length)
    (h : ScrolledMatches p ∨ hasScroll events = true) :
    ScrolledMatches (run p events) := by
  induction events generalizing p with
  | nil =>
    rcases h with h | h
    · exact h
    · exact absurd h (by simp [hasScroll])
  | cons e rest ih =>
    have hw := dispatch_wiring p e
    have ho1 : (dispatch p e).onscroll = some .onScroll := hw.1.trans ho
    have hn1 : (dispatch p e).navbar = some n := hw.2.1.trans hn
    have hlt1 : n < (dispatch p e).elems.length := by rw [hw.2.2.2.2.1]; exact hlt
    rw [run_cons]
    cases e with
    | scroll y =>
      exact ih _ ho1 hn1 hlt1 (Or.inl (dispatch_scroll_matches p y n ho hn hlt))
    | click t =>
      rcases h with h | h
      · exact ih _ ho1 hn1 hlt1 (Or.inl (dispatch_click_matches p t n hn hlt h))
      · exact ih _ ho1 hn1 hlt1 (Or.inr (by simpa [hasScroll] using h))

theorem dispatch_scroll_flag (p : Page) (y : ℚ) (n : Nat)
    (ho : p.onscroll = some .onScroll) (hn : p.navbar = some n) (hlt : n < p.elems.length) :
    scrolledFlag (dispatch p (.scroll y)) = true ↔ y > 80 := by
  obtain ⟨q, hq, _, _, hiff⟩ := onScrollHandler_scrolled (setScrollY p y) n hn hlt
  rw [dispatch_scroll p y .onScroll ho]
  have hf : fire .onScroll (setScrollY p y) = q := by simp only [fire, call, hq]
  rw [hf]
  exact hiff

theorem dispatch_scroll_active (p : Page) (y : ℚ) (ho : p.onscroll = some .onScroll) :
    activeFlag (dispatch p (.scroll y)) = activeFlag p := by
  rw [dispatch_scroll p y .onScroll ho]
  exact fire_onScroll_activeFlag (setScrollY p y)

theorem fire_onHamburger_active (p : Page) (n : Nat) (hn : p.navLinks = some n)
    (hlt : n < p.elems.length) : activeFlag (fire .onHamburger p) = !activeFlag p := by
  obtain ⟨q, hq, _, _, ha⟩ := onHamburgerHandler_active p n hn hlt
  have hf : fire .onHamburger p = q := by simp only [fire, call, hq]
  rw [hf]
  exact ha

theorem fire_onLink_active (p : Page) (n : Nat) (hn : p.navLinks = some n)
    (hlt : n < p.elems.length) : activeFlag (fire .onLink p) = false := by
  obtain ⟨q, hq, ha⟩ := onLinkHandler_active p n hn hlt
  have hf : fire .onLink p = q := by simp only [fire, call, hq]
  rw [hf]
  exact ha

/-! ## Click paths: lemmas -/

theorem propagationPath_congr (es fs : List Element)
    (h : ∀ i : Nat, (fs[i]?).map Element.parent = (es[i]?).map Element.parent)
    (fuel t : Nat) :
    propagationPath fs fuel t = propagationPath es fuel t := by
  induction fuel generalizing t with
  | zero => rfl
  | succ fuel ih =>
    have ht := h t
    cases hf : fs[t]? with
    | none =>
      cases he : es[t]? with
      | none => simp only [propagationPath, hf, he]
      | some e => rw [hf, he] at ht; simp at ht
    | some f =>
      cases he : es[t]? with
      | none => rw [hf, he] at ht; simp at ht
      | some e =>
        rw [hf, he] at ht
        have hpar : f.parent = e.parent := by simpa using ht
        simp only [propagationPath, hf, he, hpar, ih]

/-- Every element on a click path stands at or before the target. -/
theorem propagationPath_le (es : List Element) (fuel t i : Nat)
    (hi : i ∈ propagationPath es fuel t) : i ≤ t := by
  induction fuel generalizing t with
  | zero => simp [propagationPath] at hi
  | succ fuel ih =>
    unfold propagationPath at hi
    cases he : es[t]? with
    | none => simp [he] at hi
    | some e =>
      simp only [he] at hi
      cases hp : e.parent with
      | none =>
        simp only [hp, List.mem_singleton] at hi
        exact Nat.le_of_eq hi
      | some par =>
        simp only [hp] at hi
        by_cases hlt : par < t
        · rw [if_pos hlt, List.mem_cons] at hi
          rcases hi with hi | hi
          · exact Nat.le_of_eq hi
          · exact Nat.le_of_lt (Nat.lt_of_le_of_lt (ih par hi) hlt)
        · rw [if_neg hlt, List.mem_singleton] at hi
          exact Nat.le_of_eq hi

/-- The path of a click on an element of the page starts at that element, and
the rest of it stands strictly before the element. -/
theorem eventPath_cons (p : Page) (t : Nat) (ht : t < p.elems.length) :
    ∃ rest, eventPath p t = t :: rest ∧ ∀ i ∈ rest, i < t := by
  unfold eventPath propagationPath
  rw [List.getElem?_eq_getElem ht]
  simp only
  cases hp : (p.elems[t]).parent with
  | none => exact ⟨[], rfl, fun i hi => by simp at hi⟩
  | some par =>
    simp only
    by_cases hlt : par < t
    · rw [if_pos hlt]
      exact ⟨_, rfl, fun i hi => Nat.lt_of_le_of_lt (propagationPath_le _ _ _ _ hi) hlt⟩
    · rw [if_neg hlt]
      exact ⟨[], rfl, fun i hi => by simp at hi⟩

/-- The fuel of `eventPath` is enough: any larger fuel gives the same path. -/
theorem propagationPath_fuel (es : List Element) (fuel1 fuel2 t : Nat)
    (h1 : t < fuel1) (h2 : t < fuel2) :
    propagationPath es fuel1 t = propagationPath es fuel2 t := by
  induction fuel1 generalizing fuel2 t with
  | zero => exact absurd h1 (Nat.not_lt_zero t)
  | succ f1 ih =>
    cases fuel2 with
    | zero => exact absurd h2 (Nat.not_lt_zero t)
    | succ f2 =>
      unfold propagationPath
      cases es[t]? with
      | none => rfl
      | some e =>
        simp only
        cases e.parent with
        | none => rfl
        | some par =>
          simp only
          by_cases hlt : par < t
          · rw [if_pos hlt, if_pos hlt, ih f2 par (by omega) (by omega)]
          · rw [if_neg hlt, if_neg hlt]

theorem sameTree_refl (p : Page) : SameTree p p := fun _ => rfl

theorem sameTree_trans {p q r : Page} (h1 : SameTree p q) (h2 : SameTree q r) :
    SameTree p r := fun i => (h2 i).trans (h1 i)

theorem eventPath_congr (p q : Page) (h : SameTree p q) (t : Nat) :
    eventPath q t = eventPath p t :=
  propagationPath_congr p.elems q.elems h (t + 1) t

theorem parentAt_updateClassList (p q : Page) (n i : Nat) (f : List String → List String)
    (he : q.elems = updateClassList p.elems n f) : parentAt q i = parentAt p i := by
  unfold parentAt
  rw [he]
  unfold updateClassList
  rw [updateAt_getElem?]
  by_cases hi : i = n
  · rw [if_pos hi]
    cases p.elems[i]? with
    | none => rfl
    | some e => rfl
  · rw [if_neg hi]

theorem parentAt_setOnclick (p q : Page) (n i : Nat) (h : Handler)
    (he : q.elems = setOnclick p.elems n h) : parentAt q i = parentAt p i := by
  unfold parentAt
  rw [he]
  unfold setOnclick
  rw [updateAt_getElem?]
  by_cases hi : i = n
  · rw [if_pos hi]
    cases p.elems[i]? with
    | none => rfl
    | some e => rfl
  · rw [if_neg hi]

theorem fire_sameTree (h : Handler) (p : Page) : SameTree p (fire h p) := by
  intro i
  cases h with
  | onScroll =>
    cases hn : p.navbar with
    | none => rw [fire_onScroll_null p hn]
    | some n =>
      by_cases hy : p.scrollY > 80
      · exact parentAt_updateClassList p _ n i _ (fire_onScroll_pos p n hn hy).2
      · exact parentAt_updateClassList p _ n i _ (fire_onScroll_neg p n hn hy).2
  | onHamburger =>
    cases hn : p.navLinks with
    | none => rw [fire_onHamburger_null p hn]
    | some n => exact parentAt_updateClassList p _ n i _ (fire_onHamburger_some p n hn).2
  | onLink =>
    cases hn : p.navLinks with
    | none => rw [fire_onLink_null p hn]
    | some n => exact parentAt_updateClassList p _ n i _ (fire_onLink_some p n hn).2

theorem clickStep_sameTree (p : Page) (i : Nat) : SameTree p (clickStep p i) := by
  cases ho : onclickAt p i with
  | none => rw [clickStep_none p i ho]; exact sameTree_refl p
  | some h => rw [clickStep_some p i h ho]; exact fire_sameTree h p

theorem foldl_clickStep_sameTree (path : List Nat) (p : Page) :
    SameTree p (path.foldl clickStep p) := by
  induction path generalizing p with
  | nil => exact sameTree_refl p
  | cons i rest ih => exact sameTree_trans (clickStep_sameTree p i) (ih (clickStep p i))

theorem dispatch_sameTree (p : Page) (e : Event) : SameTree p (dispatch p e) := by
  cases e with
  | scroll y =>
    cases ho : p.onscroll with
    | none => rw [dispatch_scroll_none p y ho]; exact fun _ => rfl
    | some h =>
      rw [dispatch_scroll p y h ho]
      exact sameTree_trans (fun _ => rfl) (fire_sameTree h (setScrollY p y))
  | click t => exact foldl_clickStep_sameTree (eventPath p t) p

theorem run_sameTree (p : Page) (events : List Event) : SameTree p (run p events) := by
  induction events generalizing p with
  | nil => exact sameTree_refl p
  | cons e rest ih => exact sameTree_trans (dispatch_sameTree p e) (ih (dispatch p e))

/-- A click whose path meets only link handlers, on a page where `active` is
absent, leaves it absent. -/
theorem foldl_clickStep_active_off (path : List Nat) (p : Page) (m : Nat)
    (hm : p.navLinks = some m) (hlt : m < p.elems.length)
    (hall : ∀ i ∈ path, onclickAt p i = some .onLink ∨ onclickAt p i = none)
    (ha : activeFlag p = false) :
    activeFlag (path.foldl clickStep p) = false := by
  induction path generalizing p with
  | nil => exact ha
  | cons i rest ih =>
    have hw := clickStep_wiring p i
    have hrest : ∀ j ∈ rest, onclickAt (clickStep p i) j = some .onLink ∨
        onclickAt (clickStep p i) j = none := by
      intro j hj
      rw [hw.2.2.2.2.2 j]
      exact hall j (List.mem_cons_of_mem i hj)
    have hstep : activeFlag (clickStep p i) = false := by
      rcases hall i (List.mem_cons_self i rest) with ho | ho
      · rw [clickStep_some p i .onLink ho]
        exact fire_onLink_active p m hm hlt
      · rw [clickStep_none p i ho]
        exact ha
    exact ih (clickStep p i) (hw.2.2.2.1.trans hm) (by rw [hw.2.2.2.2.1]; exact hlt) hrest hstep

/-! ## Claims about single handlers -/

/-- C1: with the navbar present, the scroll handler run at offset `y` returns
normally and leaves `scrolled` on the navbar exactly when `y > 80`, whatever
the class list was before; at 80 the class is absent, at 81 present. -/
theorem scroll_handler_scrolled_iff (p : Page) (y : ℚ) (n : Nat)
    (hn : p.navbar = some n) (hlt : n < p.elems.length) :
    (∃ q, onScrollHandler (setScrollY p y) = .ok q ∧
      (scrolledFlag q = true ↔ y > 80)) ∧
    (∃ q, onScrollHandler (setScrollY p 80) = .ok q ∧ scrolledFlag q = false) ∧
    (∃ q, onScrollHandler (setScrollY p 81) = .ok q ∧ scrolledFlag q = true) := by
  refine ⟨?_, ?_, ?_⟩
  · obtain ⟨q, hq, _, _, hiff⟩ := onScrollHandler_scrolled (setScrollY p y) n hn hlt
    exact ⟨q, hq, hiff⟩
  · obtain ⟨q, hq, _, _, hiff⟩ := onScrollHandler_scrolled (setScrollY p 80) n hn hlt
    refine ⟨q, hq, ?_⟩
    cases hs : scrolledFlag q with
    | false => rfl
    | true =>
      have h80 : (80 : ℚ) > 80 := hiff.1 hs
      exact absurd h80 (by decide)
  · obtain ⟨q, hq, _, _, hiff⟩ := onScrollHandler_scrolled (setScrollY p 81) n hn hlt
    have h81 : (81 : ℚ) > 80 := by decide
    exact ⟨q, hq, hiff.2 h81⟩

/-- Witness of C1 on the sample page at offset 100. -/
theorem scroll_handler_scrolled_iff_witness :
    (samplePage.navbar = some 0 ∧ 0 < samplePage.elems.length) ∧
    ((∃ q, onScrollHandler (setScrollY samplePage 100) = .ok q ∧
      (scrolledFlag q = true ↔ (100 : ℚ) > 80)) ∧
    (∃ q, onScrollHandler (setScrollY samplePage 80) = .ok q ∧ scrolledFlag q = false) ∧
    (∃ q, onScrollHandler (setScrollY samplePage 81) = .ok q ∧ scrolledFlag q = true)) :=
  ⟨⟨by decide, by decide⟩, scroll_handler_scrolled_iff samplePage 100 0 (by decide) (by decide)⟩

/-- C2: with the nav-links container present, one call of the hamburger
handler returns normally and flips `active` on it, and a second call brings
the flag back to its first value. -/
theorem hamburger_handler_flips (p : Page) (n : Nat)
    (hn : p.navLinks = some n) (hlt : n < p.elems.length) :
    ∃ q r, onHamburgerHandler p = .ok q ∧ onHamburgerHandler q = .ok r ∧
      activeFlag q = (!activeFlag p) ∧ activeFlag r = activeFlag p := by
  obtain ⟨q, hq, hqn, hqlen, hqa⟩ := onHamburgerHandler_active p n hn hlt
  obtain ⟨r, hr, _, _, hra⟩ := onHamburgerHandler_active q n hqn (hqlen ▸ hlt)
  refine ⟨q, r, hq, hr, hqa, ?_⟩
  rw [hra, hqa, Bool.not_not]

/-- Witness of C2 on the sample page. -/
theorem hamburger_handler_flips_witness :
    (samplePage.navLinks = some 2 ∧ 2 < samplePage.elems.length) ∧
    ∃ q r, onHamburgerHandler samplePage = .ok q ∧ onHamburgerHandler q = .ok r ∧
      activeFlag q = (!activeFlag samplePage) ∧ activeFlag r = activeFlag samplePage :=
  ⟨⟨by decide, by decide⟩, hamburger_handler_flips samplePage 2 (by decide) (by decide)⟩

/-- C3: with the nav-links container present, the link handler returns
normally and leaves `active` absent, also after any number `k` of hamburger
clicks; when `active` is absent already the page is returned as it was. -/
theorem link_handler_clears_active (p : Page) (n : Nat)
    (hn : p.navLinks = some n) (hlt : n < p.elems.length) :
    (∃ q, onLinkHandler p = .ok q ∧ activeFlag q = false) ∧
    (∀ k, ∃ q, onLinkHandler (hamburgerClicks k p) = .ok q ∧ activeFlag q = false) ∧
    (activeFlag p = false → onLinkHandler p = .ok p) := by
  refine ⟨onLinkHandler_active p n hn hlt, ?_, onLinkHandler_noop p n hn⟩
  intro k
  have hk := hamburgerClicks_keeps k p
  exact onLinkHandler_active _ n (hk.1.trans hn) (hk.2 ▸ hlt)

/-- Witness of C3 on the sample page. -/
theorem link_handler_clears_active_witness :
    (samplePage.navLinks = some 2 ∧ 2 < samplePage.elems.length) ∧
    ((∃ q, onLinkHandler samplePage = .ok q ∧ activeFlag q = false) ∧
    (∀ k, ∃ q, onLinkHandler (hamburgerClicks k samplePage) = .ok q ∧ activeFlag q = false) ∧
    (activeFlag samplePage = false → onLinkHandler samplePage = .ok samplePage)) :=
  ⟨⟨by decide, by decide⟩, link_handler_clears_active samplePage 2 (by decide) (by decide)⟩

/-- C6: the scroll handler, at any offset, leaves `active` on the nav-links
container as it was, and the hamburger and link handlers leave `scrolled` on
the navbar as it was. -/
theorem flags_independent (p : Page) (y : ℚ) :
    activeFlag (fire .onScroll (setScrollY p y)) = activeFlag p ∧
    scrolledFlag (fire .onHamburger p) = scrolledFlag p ∧
    scrolledFlag (fire .onLink p) = scrolledFlag p :=
  ⟨fire_onScroll_activeFlag (setScrollY p y),
    fire_click_scrolledFlag .onHamburger (by decide) p,
    fire_click_scrolledFlag .onLink (by decide) p⟩

/-- C8: the scroll handler run twice at offset `y` leaves the same page, all
class lists included, as the scroll handler run once at offset `y`. -/
theorem scroll_handler_idempotent (p : Page) (y : ℚ) :
    fire .onScroll (setScrollY (fire .onScroll (setScrollY p y)) y) =
      fire .onScroll (setScrollY p y) := by
  have hy : (fire .onScroll (setScrollY p y)).scrollY = y :=
    (fire_sameFrame .onScroll (setScrollY p y)).1.1
  have hsame : setScrollY (fire .onScroll (setScrollY p y)) y =
      fire .onScroll (setScrollY p y) :=
    Page.eq_of_sameFrame _ _ rfl ⟨hy.symm, rfl, rfl, rfl, rfl⟩
  rw [hsame]
  exact fire_onScroll_twice _

/-- C10: the scroll handler keeps the membership of every class other than
`scrolled` and the class list of every element other than the navbar; the
hamburger and link handlers keep the membership of every class other than
`active` and the class list of every element other than the nav-links
container. -/
theorem handlers_change_one_class (p : Page) (y : ℚ) (i : Nat) (c : String) :
    (c ≠ "scrolled" →
      hasClass (fire .onScroll (setScrollY p y)) i c = hasClass p i c) ∧
    (p.navbar ≠ some i →
      classListAt (fire .onScroll (setScrollY p y)) i = classListAt p i) ∧
    (c ≠ "active" → hasClass (fire .onHamburger p) i c = hasClass p i c) ∧
    (p.navLinks ≠ some i → classListAt (fire .onHamburger p) i = classListAt p i) ∧
    (c ≠ "active" → hasClass (fire .onLink p) i c = hasClass p i c) ∧
    (p.navLinks ≠ some i → classListAt (fire .onLink p) i = classListAt p i) :=
  ⟨fun hc => fire_onScroll_hasClass (setScrollY p y) i c hc,
    fun hi => fire_onScroll_classListAt (setScrollY p y) i hi,
    fun hc => fire_click_hasClass .onHamburger (by decide) p i c hc,
    fun hi => fire_click_classListAt .onHamburger (by decide) p i hi,
    fun hc => fire_click_hasClass .onLink (by decide) p i c hc,
    fun hi => fire_click_classListAt .onLink (by decide) p i hi⟩

/-- Witness of C10 on the sample page: the class `nav` of the navbar and the
class list of the hamburger (element 1) through each handler. -/
theorem handlers_change_one_class_witness :
    ("nav" ≠ "scrolled" ∧ "nav" ≠ "active" ∧ samplePage.navbar ≠ some 1 ∧
      samplePage.navLinks ≠ some 1) ∧
    hasClass (fire .onScroll (setScrollY samplePage 100)) 0 "nav"
      = hasClass samplePage 0 "nav" ∧
    classListAt (fire .onScroll (setScrollY samplePage 100)) 1
      = classListAt samplePage 1 ∧
    hasClass (fire .onHamburger samplePage) 0 "nav" = hasClass samplePage 0 "nav" ∧
    classListAt (fire .onHamburger samplePage) 1 = classListAt samplePage 1 ∧
    hasClass (fire .onLink samplePage) 0 "nav" = hasClass samplePage 0 "nav" ∧
    classListAt (fire .onLink samplePage) 1 = classListAt samplePage 1 :=
  ⟨⟨by decide, by decide, by decide, by decide⟩,
    (handlers_change_one_class samplePage 100 0 "nav").1 (by decide),
    (handlers_change_one_class samplePage 100 1 "nav").2.1 (by decide),
    (handlers_change_one_class samplePage 100 0 "nav").2.2.1 (by decide),
    (handlers_change_one_class samplePage 100 1 "nav").2.2.2.1 (by decide),
    (handlers_change_one_class samplePage 100 0 "nav").2.2.2.2.1 (by decide),
    (handlers_change_one_class samplePage 100 1 "nav").2.2.2.2.2 (by decide)⟩

/-! ## Claims about the loaded page and its events -/

/-- C4, as stated, fails: a page loaded with the viewport at offset 100 and no
`scrolled` class on the navbar is, before any event, in a state where the
flag is off although the offset is above 80. -/
theorem scrolled_invariant_fails_at_load :
    ¬ (scrolledFlag (run (runScript scrolledLoadDoc).1 []) = true ↔
      (run (runScript scrolledLoadDoc).1 []).scrollY > 80) := by
  decide

/-- C4, amended: with the navbar present, after the script and any finite
sequence of events, the navbar carries `scrolled` exactly when the offset is
above 80, provided a scroll event is among the events or the flag matched
the offset when the script ended. -/
theorem scrolled_invariant_after_scroll (d : Document) (n : Nat) (events : List Event)
    (hn : getElementById d.nodes "navbar" = some n)
    (h : (scrolledFlag (runScript d).1 = true ↔ (runScript d).1.scrollY > 80) ∨
      hasScroll events = true) :
    scrolledFlag (run (runScript d).1 events) = true ↔
      (run (runScript d).1 events).scrollY > 80 := by
  obtain ⟨hfr, hlen⟩ := runScript_frame d
  have ho : (runScript d).1.onscroll = some .onScroll := hfr.2.1
  have hn1 : (runScript d).1.navbar = some n := hfr.2.2.1.trans hn
  have hlt : n < (runScript d).1.elems.length := by
    rw [hlen]; exact getElementById_lt _ _ _ hn
  exact run_matches n events _ ho hn1 hlt h

/-- Witness of the amended C4: the page loaded at offset 100, then a
hamburger click, a scroll to 100 and a link click. -/
theorem scrolled_invariant_after_scroll_witness :
    (getElementById scrolledLoadDoc.nodes "navbar" = some 0 ∧
      hasScroll [.click 1, .scroll 100, .click 3] = true) ∧
    (scrolledFlag (run (runScript scrolledLoadDoc).1 [.click 1, .scroll 100, .click 3]) = true ↔
      (run (runScript scrolledLoadDoc).1 [.click 1, .scroll 100, .click 3]).scrollY > 80) :=
  ⟨⟨by decide, by decide⟩,
    scrolled_invariant_after_scroll scrolledLoadDoc 0 [.click 1, .scroll 100, .click 3]
      (by decide) (Or.inr (by decide))⟩

/-- C7, as stated, fails: on a page whose hamburger holds the nav-links
container the script ends without a fault, neither class is present at load
and the first three steps go as told, but the click on the link, after
closing the menu, bubbles to the hamburger and opens it again. -/
theorem loading_scenario_fails_nested :
    (runScript nestedDoc).2 = none ∧
    scrolledFlag (runScript nestedDoc).1 = false ∧
    activeFlag (runScript nestedDoc).1 = false ∧
    activeFlag (run (runScript nestedDoc).1 [.scroll 100, .scroll 0, .click 1]) = true ∧
    activeFlag (run (runScript nestedDoc).1 [.scroll 100, .scroll 0, .click 1, .click 3])
      = true := by
  decide

/-- C7, amended: on a page with the three elements and a matched link, with
`active` absent at load, where no element on the click path of the hamburger
(itself and its ancestors) is a matched link and the hamburger is not on the
click path of the link, the script ends without a fault and the scenario runs
as told: scroll to 100 sets `scrolled`, scroll to 0 clears it, a hamburger
click sets `active`, a click on the link clears it. -/
theorem loading_scenario (d : Document) (n h m link : Nat)
    (hn : getElementById d.nodes "navbar" = some n)
    (hh : getElementById d.nodes "hamburger" = some h)
    (hm : getElementById d.nodes "nav-links" = some m)
    (hlink : link ∈ d.navLinkAnchors) (hlt : link < d.nodes.length)
    (hpathH : ∀ i ∈ eventPath (runScript d).1 h, i ∉ d.navLinkAnchors)
    (hpathL : h ∉ eventPath (runScript d).1 link)
    (ha0 : activeFlag (runScript d).1 = false) :
    (runScript d).2 = none ∧
    scrolledFlag (run (runScript d).1 [.scroll 100]) = true ∧
    scrolledFlag (run (runScript d).1 [.scroll 100, .scroll 0]) = false ∧
    activeFlag (run (runScript d).1 [.scroll 100, .scroll 0, .click h]) = true ∧
    activeFlag (run (runScript d).1 [.scroll 100, .scroll 0, .click h, .click link]) = false := by
  obtain ⟨hfault, hfr, hlen, _, hoc⟩ := runScript_page d h hh
  generalize (runScript d).1 = p0 at hfr hlen hoc ha0 hpathH hpathL ⊢
  have ho0 : p0.onscroll = some .onScroll := hfr.2.1
  have hn0 : p0.navbar = some n := hfr.2.2.1.trans hn
  have hm0 : p0.navLinks = some m := hfr.2.2.2.2.trans hm
  have hnlt : n < p0.elems.length := by rw [hlen]; exact getElementById_lt _ _ _ hn
  have hmlt : m < p0.elems.length := by rw [hlen]; exact getElementById_lt _ _ _ hm
  have hhlt : h < p0.elems.length := by rw [hlen]; exact getElementById_lt _ _ _ hh
  have hllt : link < p0.elems.length := by rw [hlen]; exact hlt
  -- the states of the trace
  have hw1 := dispatch_wiring p0 (.scroll 100)
  have ht1 := dispatch_sameTree p0 (.scroll 100)
  generalize hp1 : dispatch p0 (.scroll 100) = p1 at hw1 ht1
  have hw2 := wiring_trans hw1 (dispatch_wiring p1 (.scroll 0))
  have ht2 := sameTree_trans ht1 (dispatch_sameTree p1 (.scroll 0))
  generalize hp2 : dispatch p1 (.scroll 0) = p2 at hw2 ht2
  have hw3 := wiring_trans hw2 (dispatch_wiring p2 (.click h))
  have ht3 := sameTree_trans ht2 (dispatch_sameTree p2 (.click h))
  generalize hp3 : dispatch p2 (.click h) = p3 at hw3 ht3
  have hr1 : run p0 [.scroll 100] = p1 := hp1
  have hr2 : run p0 [.scroll 100, .scroll 0] = p2 := by
    show dispatch (dispatch p0 (.scroll 100)) (.scroll 0) = p2
    rw [hp1, hp2]
  have hr3 : run p0 [.scroll 100, .scroll 0, .click h] = p3 := by
    show dispatch (dispatch (dispatch p0 (.scroll 100)) (.scroll 0)) (.click h) = p3
    rw [hp1, hp2, hp3]
  have hr4 : run p0 [.scroll 100, .scroll 0, .click h, .click link] =
      dispatch p3 (.click link) := by
    show dispatch (dispatch (dispatch (dispatch p0 (.scroll 100)) (.scroll 0)) (.click h))
      (.click link) = _
    rw [hp1, hp2, hp3]
  rw [hr1, hr2, hr3, hr4]
  have h100 : (100 : ℚ) > 80 := by decide
  have h0 : ¬ (0 : ℚ) > 80 := by decide
  have ha2 : activeFlag p2 = false := by
    have ha1 : activeFlag p1 = false := by
      rw [← hp1, dispatch_scroll_active p0 100 ho0]; exact ha0
    rw [← hp2, dispatch_scroll_active p1 0 (hw1.1.trans ho0)]; exact ha1
  have ha3 : activeFlag p3 = true := by
    obtain ⟨rest, hpath, hbelow⟩ := eventPath_cons p2 h (by rw [hw2.2.2.2.2.1]; exact hhlt)
    have hpath0 : eventPath p0 h = h :: rest := by rw [← eventPath_congr p0 p2 ht2 h]; exact hpath
    have hoh : onclickAt p2 h = some .onHamburger := by
      rw [hw2.2.2.2.2.2 h, hoc h]
      have hnot : h ∉ d.navLinkAnchors := hpathH h (by rw [hpath0]; exact List.mem_cons_self h rest)
      simp [hnot]
    have hquiet : ∀ i ∈ rest, onclickAt (clickStep p2 h) i = none := by
      intro i hi
      rw [(clickStep_wiring p2 h).2.2.2.2.2 i, hw2.2.2.2.2.2 i, hoc i]
      have hnot : i ∉ d.navLinkAnchors :=
        hpathH i (by rw [hpath0]; exact List.mem_cons_of_mem h hi)
      have hne : i ≠ h := Nat.ne_of_lt (hbelow i hi)
      simp [hnot, hne]
    rw [← hp3, dispatch_click, hpath, List.foldl_cons,
      foldl_clickStep_none rest (clickStep p2 h) hquiet, clickStep_some p2 h .onHamburger hoh,
      fire_onHamburger_active p2 m (hw2.2.2.2.1.trans hm0) (by rw [hw2.2.2.2.2.1]; exact hmlt),
      ha2]
    rfl
  refine ⟨hfault, ?_, ?_, ha3, ?_⟩
  · rw [← hp1]
    exact (dispatch_scroll_flag p0 100 n ho0 hn0 hnlt).2 h100
  · rw [← hp2]
    have hiff := dispatch_scroll_flag p1 0 n (hw1.1.trans ho0) (hw1.2.1.trans hn0)
      (by rw [hw1.2.2.2.2.1]; exact hnlt)
    cases hs : scrolledFlag (dispatch p1 (.scroll 0)) with
    | false => rfl
    | true => exact absurd (hiff.1 hs) h0
  · obtain ⟨rest, hpath, _⟩ := eventPath_cons p3 link (by rw [hw3.2.2.2.2.1]; exact hllt)
    have hpath0 : eventPath p0 link = link :: rest := by
      rw [← eventPath_congr p0 p3 ht3 link]; exact hpath
    have hm3 : p3.navLinks = some m := hw3.2.2.2.1.trans hm0
    have hmlt3 : m < p3.elems.length := by rw [hw3.2.2.2.2.1]; exact hmlt
    have hol : onclickAt p3 link = some .onLink := by
      rw [hw3.2.2.2.2.2 link, hoc link]; simp [hlink, hlt]
    have hw4 := clickStep_wiring p3 link
    have hall : ∀ i ∈ rest, onclickAt (clickStep p3 link) i = some .onLink ∨
        onclickAt (clickStep p3 link) i = none := by
      intro i hi
      rw [hw4.2.2.2.2.2 i, hw3.2.2.2.2.2 i, hoc i]
      have hne : i ≠ h := by
        intro e
        apply hpathL
        rw [hpath0, ← e]
        exact List.mem_cons_of_mem link hi
      by_cases hc : i ∈ d.navLinkAnchors ∧ i < d.nodes.length
      · exact Or.inl (by rw [if_pos hc])
      · exact Or.inr (by rw [if_neg hc, if_neg hne])
    rw [dispatch_click, hpath, List.foldl_cons]
    apply foldl_clickStep_active_off rest (clickStep p3 link) m (hw4.2.2.2.1.trans hm3)
      (by rw [hw4.2.2.2.2.1]; exact hmlt3) hall
    rw [clickStep_some p3 link .onLink hol]
    exact fire_onLink_active p3 m hm3 hmlt3

/-- Witness of the amended C7 on the sample document, clicking its first
link. -/
theorem loading_scenario_witness :
    (getElementById sampleDoc.nodes "navbar" = some 0 ∧
      getElementById sampleDoc.nodes "hamburger" = some 1 ∧
      getElementById sampleDoc.nodes "nav-links" = some 2 ∧
      3 ∈ sampleDoc.navLinkAnchors ∧ 3 < sampleDoc.nodes.length ∧
      (∀ i ∈ eventPath (runScript sampleDoc).1 1, i ∉ sampleDoc.navLinkAnchors) ∧
      1 ∉ eventPath (runScript sampleDoc).1 3 ∧
      activeFlag (runScript sampleDoc).1 = false) ∧
    ((runScript sampleDoc).2 = none ∧
    scrolledFlag (run (runScript sampleDoc).1 [.scroll 100]) = true ∧
    scrolledFlag (run (runScript sampleDoc).1 [.scroll 100, .scroll 0]) = false ∧
    activeFlag (run (runScript sampleDoc).1 [.scroll 100, .scroll 0, .click 1]) = true ∧
    activeFlag (run (runScript sampleDoc).1 [.scroll 100, .scroll 0, .click 1, .click 3])
      = false) :=
  ⟨⟨by decide, by decide, by decide, by decide, by decide, by decide, by decide, by decide⟩,
    loading_scenario sampleDoc 0 1 2 3 (by decide) (by decide) (by decide) (by decide)
      (by decide) (by decide) (by decide) (by decide)⟩

/-- C9: with the three elements present and no element matched by
`.nav-links a`, the script ends without a fault, no element gets the link
handler, `window.onscroll` and the hamburger toggle are installed and return
normally, and the page differs from the one loaded with any links (the
hamburger not among them) in nothing but the `onclick` of those links. -/
theorem no_links_still_binds (d : Document) (n h m : Nat)
    (hn : getElementById d.nodes "navbar" = some n)
    (hh : getElementById d.nodes "hamburger" = some h)
    (hm : getElementById d.nodes "nav-links" = some m)
    (hnone : d.navLinkAnchors = []) :
    (runScript d).2 = none ∧
    (∀ i, onclickAt (runScript d).1 i ≠ some .onLink) ∧
    (runScript d).1.onscroll = some .onScroll ∧
    onclickAt (runScript d).1 h = some .onHamburger ∧
    (∃ q, onScrollHandler (runScript d).1 = .ok q) ∧
    (∃ q, onHamburgerHandler (runScript d).1 = .ok q) ∧
    (∀ links, h ∉ links →
      SameFrame (runScript (withLinks d links)).1 (runScript d).1 ∧
      onclickAt (runScript d).1 h = onclickAt (runScript (withLinks d links)).1 h ∧
      (∀ i, classListAt (runScript d).1 i = classListAt (runScript (withLinks d links)).1 i) ∧
      (∀ i, i ∉ links →
        onclickAt (runScript d).1 i = onclickAt (runScript (withLinks d links)).1 i)) := by
  obtain ⟨hfault, hfr, hlen, hcl, hoc⟩ := runScript_page d h hh
  have hnlt : n < (runScript d).1.elems.length := by
    rw [hlen]; exact getElementById_lt _ _ _ hn
  have hmlt : m < (runScript d).1.elems.length := by
    rw [hlen]; exact getElementById_lt _ _ _ hm
  have hoc0 : ∀ i, onclickAt (runScript d).1 i = if i = h then some .onHamburger else none := by
    intro i
    rw [hoc i, hnone]
    simp
  refine ⟨hfault, ?_, hfr.2.1, ?_, ?_, ?_, ?_⟩
  · intro i
    rw [hoc0 i]
    split <;> simp
  · rw [hoc0 h]; simp
  · obtain ⟨q, hq, _⟩ := onScrollHandler_scrolled _ n (hfr.2.2.1.trans hn) hnlt
    exact ⟨q, hq⟩
  · obtain ⟨q, hq, _⟩ := onHamburgerHandler_active _ m (hfr.2.2.2.2.trans hm) hmlt
    exact ⟨q, hq⟩
  · intro links hl
    have hh1 : getElementById (withLinks d links).nodes "hamburger" = some h := hh
    obtain ⟨_, hfr1, _, hcl1, hoc1⟩ := runScript_page (withLinks d links) h hh1
    have hb : boundPage (withLinks d links) = boundPage d := rfl
    rw [hb] at hfr1 hcl1
    refine ⟨?_, ?_, ?_, ?_⟩
    · obtain ⟨a1, a2, a3, a4, a5⟩ := hfr
      obtain ⟨b1, b2, b3, b4, b5⟩ := hfr1
      exact ⟨a1.trans b1.symm, a2.trans b2.symm, a3.trans b3.symm, a4.trans b4.symm,
        a5.trans b5.symm⟩
    · rw [hoc0 h, hoc1 h]
      have hl1 : h ∉ (withLinks d links).navLinkAnchors := hl
      simp [hl1]
    · intro i
      rw [hcl i, hcl1 i]
    · intro i hi
      rw [hoc0 i, hoc1 i]
      have hi1 : i ∉ (withLinks d links).navLinkAnchors := hi
      simp [hi1]

/-- Witness of C9: the sample document with its links taken away, compared
with the sample document itself. -/
theorem no_links_still_binds_witness :
    (getElementById (withLinks sampleDoc []).nodes "navbar" = some 0 ∧
      getElementById (withLinks sampleDoc []).nodes "hamburger" = some 1 ∧
      getElementById (withLinks sampleDoc []).nodes "nav-links" = some 2 ∧
      (withLinks sampleDoc []).navLinkAnchors = [] ∧ 1 ∉ [3, 4]) ∧
    (runScript (withLinks sampleDoc [])).2 = none ∧
    (runScript (withLinks sampleDoc [])).1.onscroll = some .onScroll ∧
    onclickAt (runScript (withLinks sampleDoc [])).1 1 = some .onHamburger ∧
    onclickAt (runScript (withLinks sampleDoc [])).1 1 =
      onclickAt (runScript (withLinks (withLinks sampleDoc []) [3, 4])).1 1 :=
  ⟨⟨by decide, by decide, by decide, by decide, by decide⟩,
    (no_links_still_binds (withLinks sampleDoc []) 0 1 2 (by decide) (by decide) (by decide)
      (by decide)).1,
    (no_links_still_binds (withLinks sampleDoc []) 0 1 2 (by decide) (by decide) (by decide)
      (by decide)).2.2.1,
    (no_links_still_binds (withLinks sampleDoc []) 0 1 2 (by decide) (by decide) (by decide)
      (by decide)).2.2.2.1,
    ((no_links_still_binds (withLinks sampleDoc []) 0 1 2 (by decide) (by decide) (by decide)
      (by decide)).2.2.2.2.2.2 [3, 4] (by decide)).2.1⟩

/-- C5, as stated, fails: without a navbar the script ends without a fault
and the hamburger toggle and the link auto-close work; without a hamburger
the script faults on line 15 but the scroll reaction is installed and works;
without a nav-links container the script ends without a fault. -/
theorem missing_element_counterexample :
    ((runScript noNavbarDoc).2 = none ∧
      activeFlag (run (runScript noNavbarDoc).1 [.click 0]) = true ∧
      activeFlag (run (runScript noNavbarDoc).1 [.click 0, .click 2]) = false) ∧
    ((runScript noHamburgerDoc).2 = some (.typeError 15) ∧
      scrolledFlag (run (runScript noHamburgerDoc).1 [.scroll 100]) = true) ∧
    (runScript noNavLinksDoc).2 = none := by
  decide

/-- C5, amended: without a hamburger the script faults while binding, on
line 15, with `window.onscroll` already installed and no click handler
attached; with a hamburger it ends without a fault, whatever else is
missing.  After any events: with the navbar missing the scroll handler
faults when called and the page stays as it was; with the nav-links
container missing the hamburger and link handlers fault when called and the
page stays as it was.  What does not use the missing element works: with the
navbar present every scroll event leaves `scrolled` on it exactly when the
offset is above 80, also after the fault on line 15; with the hamburger and
the nav-links container present the link handler is on every matched
element, the toggle on the hamburger unless it is itself matched, and when
called the toggle flips `active` and the link handler clears it. -/
theorem missing_element_behaviour (d : Document) :
    (getElementById d.nodes "hamburger" = none →
      (runScript d).2 = some (.typeError 15) ∧
      (runScript d).1.onscroll = some .onScroll ∧
      ∀ i, onclickAt (runScript d).1 i = none) ∧
    (getElementById d.nodes "hamburger" ≠ none → (runScript d).2 = none) ∧
    (getElementById d.nodes "navbar" = none → ∀ events,
      (∃ line, onScrollHandler (run (runScript d).1 events) = .error (.typeError line)) ∧
      fire .onScroll (run (runScript d).1 events) = run (runScript d).1 events) ∧
    (getElementById d.nodes "nav-links" = none → ∀ events,
      onHamburgerHandler (run (runScript d).1 events) = .error (.typeError 16) ∧
      onLinkHandler (run (runScript d).1 events) = .error (.typeError 21) ∧
      fire .onHamburger (run (runScript d).1 events) = run (runScript d).1 events ∧
      fire .onLink (run (runScript d).1 events) = run (runScript d).1 events) ∧
    (∀ n, getElementById d.nodes "navbar" = some n →
      (runScript d).1.onscroll = some .onScroll ∧
      ∀ events y,
        (scrolledFlag (dispatch (run (runScript d).1 events) (.scroll y)) = true ↔ y > 80)) ∧
    (∀ h m, getElementById d.nodes "hamburger" = some h →
      getElementById d.nodes "nav-links" = some m →
      (h ∉ d.navLinkAnchors → onclickAt (runScript d).1 h = some .onHamburger) ∧
      (∀ link ∈ d.navLinkAnchors, link < d.nodes.length →
        onclickAt (runScript d).1 link = some .onLink) ∧
      ∀ events, ∃ q r,
        onHamburgerHandler (run (runScript d).1 events) = .ok q ∧
        activeFlag q = (!activeFlag (run (runScript d).1 events)) ∧
        onLinkHandler (run (runScript d).1 events) = .ok r ∧
        activeFlag r = false) := by
  obtain ⟨hfr, hlen⟩ := runScript_frame d
  refine ⟨?_, ?_, ?_, ?_, ?_, ?_⟩
  · intro hh
    rw [runScript_null d hh]
    exact ⟨rfl, rfl, boundPage_onclickAt d⟩
  · intro hh
    cases hg : getElementById d.nodes "hamburger" with
    | none => exact absurd hg hh
    | some h => exact (runScript_page d h hg).1
  · intro hn events
    have hw := run_wiring (runScript d).1 events
    have hnull : (run (runScript d).1 events).navbar = none :=
      hw.2.1.trans (hfr.2.2.1.trans hn)
    exact ⟨onScrollHandler_null _ hnull, fire_onScroll_null _ hnull⟩
  · intro hm events
    have hw := run_wiring (runScript d).1 events
    have hnull : (run (runScript d).1 events).navLinks = none :=
      hw.2.2.2.1.trans (hfr.2.2.2.2.trans hm)
    exact ⟨by simp only [onHamburgerHandler, hnull], by simp only [onLinkHandler, hnull],
      fire_onHamburger_null _ hnull, fire_onLink_null _ hnull⟩
  · intro n hn
    refine ⟨hfr.2.1, ?_⟩
    intro events y
    have hw := run_wiring (runScript d).1 events
    exact dispatch_scroll_flag _ y n (hw.1.trans hfr.2.1) (hw.2.1.trans (hfr.2.2.1.trans hn))
      (by rw [hw.2.2.2.2.1, hlen]; exact getElementById_lt _ _ _ hn)
  · intro h m hh hm
    obtain ⟨_, _, _, _, hoc⟩ := runScript_page d h hh
    refine ⟨?_, ?_, ?_⟩
    · intro hnot
      rw [hoc h]; simp [hnot]
    · intro link hlink hlt
      rw [hoc link]; simp [hlink, hlt]
    · intro events
      have hw := run_wiring (runScript d).1 events
      have hm1 : (run (runScript d).1 events).navLinks = some m :=
        hw.2.2.2.1.trans (hfr.2.2.2.2.trans hm)
      have hmlt : m < (run (runScript d).1 events).elems.length := by
        rw [hw.2.2.2.2.1, hlen]; exact getElementById_lt _ _ _ hm
      obtain ⟨q, hq, _, _, hqa⟩ := onHamburgerHandler_active _ m hm1 hmlt
      obtain ⟨r, hr, hra⟩ := onLinkHandler_active _ m hm1 hmlt
      exact ⟨q, r, hq, hqa, hr, hra⟩

/-- Witness of the amended C5 on the three documents that each miss one
element. -/
theorem missing_element_behaviour_witness :
    (getElementById noHamburgerDoc.nodes "hamburger" = none ∧
      getElementById noNavbarDoc.nodes "hamburger" ≠ none ∧
      getElementById noNavbarDoc.nodes "navbar" = none ∧
      getElementById noNavLinksDoc.nodes "nav-links" = none ∧
      getElementById noHamburgerDoc.nodes "navbar" = some 0 ∧
      getElementById noNavLinksDoc.nodes "navbar" = some 0 ∧
      getElementById noNavbarDoc.nodes "hamburger" = some 0 ∧
      getElementById noNavbarDoc.nodes "nav-links" = some 1 ∧
      0 ∉ noNavbarDoc.navLinkAnchors ∧ 2 ∈ noNavbarDoc.navLinkAnchors ∧
      2 < noNavbarDoc.nodes.length) ∧
    ((runScript noHamburgerDoc).2 = some (.typeError 15) ∧
      (runScript noHamburgerDoc).1.onscroll = some .onScroll ∧
      ∀ i, onclickAt (runScript noHamburgerDoc).1 i = none) ∧
    (runScript noNavbarDoc).2 = none ∧
    (∀ events,
      (∃ line,
        onScrollHandler (run (runScript noNavbarDoc).1 events) = .error (.typeError line)) ∧
      fire .onScroll (run (runScript noNavbarDoc).1 events) =
        run (runScript noNavbarDoc).1 events) ∧
    (∀ events,
      onHamburgerHandler (run (runScript noNavLinksDoc).1 events) = .error (.typeError 16) ∧
      onLinkHandler (run (runScript noNavLinksDoc).1 events) = .error (.typeError 21) ∧
      fire .onHamburger (run (runScript noNavLinksDoc).1 events) =
        run (runScript noNavLinksDoc).1 events ∧
      fire .onLink (run (runScript noNavLinksDoc).1 events) =
        run (runScript noNavLinksDoc).1 events) ∧
    (∀ events y,
      (scrolledFlag (dispatch (run (runScript noHamburgerDoc).1 events) (.scroll y)) = true ↔
        y > 80)) ∧
    (∀ events y,
      (scrolledFlag (dispatch (run (runScript noNavLinksDoc).1 events) (.scroll y)) = true ↔
        y > 80)) ∧
    onclickAt (runScript noNavbarDoc).1 0 = some .onHamburger ∧
    onclickAt (runScript noNavbarDoc).1 2 = some .onLink ∧
    (∀ events, ∃ q r,
      onHamburgerHandler (run (runScript noNavbarDoc).1 events) = .ok q ∧
      activeFlag q = (!activeFlag (run (runScript noNavbarDoc).1 events)) ∧
      onLinkHandler (run (runScript noNavbarDoc).1 events) = .ok r ∧
      activeFlag r = false) :=
  ⟨⟨by decide, by decide, by decide, by decide, by decide, by decide, by decide, by decide,
      by decide, by decide, by decide⟩,
    (missing_element_behaviour noHamburgerDoc).1 (by decide),
    (missing_element_behaviour noNavbarDoc).2.1 (by decide),
    (missing_element_behaviour noNavbarDoc).2.2.1 (by decide),
    (missing_element_behaviour noNavLinksDoc).2.2.2.1 (by decide),
    ((missing_element_behaviour noHamburgerDoc).2.2.2.2.1 0 (by decide)).2,
    ((missing_element_behaviour noNavLinksDoc).2.2.2.2.1 0 (by decide)).2,
    ((missing_element_behaviour noNavbarDoc).2.2.2.2.2 0 1 (by decide) (by decide)).1
      (by decide),
    ((missing_element_behaviour noNavbarDoc).2.2.2.2.2 0 1 (by decide) (by decide)).2.1 2
      (by decide) (by decide),
    ((missing_element_behaviour noNavbarDoc).2.2.2.2.2 0 1 (by decide) (by decide)).2.2⟩

end Portfolio
